import Mathlib

/-!
Verification development for the MyDeviceAI-Desktop runtime lifecycle manager.

The definitions below are a shallow embedding of the two TypeScript modules
`src/llamaSetup.ts` (install pipeline, download machinery, server supervisor)
and `src/modelManager.ts` (model registry, parameter clamping, Hugging Face
download integration).  Pure logic is translated directly; filesystem,
network and subprocess effects are made explicit as state records and
environment oracles (scripted HTTP responses, port-candidate streams,
extraction results), so every definition is executable.
-/

set_option maxHeartbeats 1000000

namespace MyDeviceAI

/-! ## JavaScript numbers

JS numbers are IEEE doubles.  The clamping logic in `modelManager.ts` only
ever compares values, so finite doubles are represented as rationals, with
explicit markers for `NaN` and the two infinities. -/

inductive JNum where
  | nan : JNum
  | posInf : JNum
  | negInf : JNum
  | val : ℚ → JNum
deriving DecidableEq, Repr

/-- `clamp` from `modelManager.ts`:
`if (Number.isNaN(num)) return min; return Math.min(max, Math.max(min, num));` -/
def clamp (num : JNum) (lo hi : ℚ) : ℚ :=
  match num with
  | .nan => lo
  | .posInf => hi
  | .negInf => min hi lo
  | .val q => min hi (max lo q)

/-! ## Runtime parameter records (`modelManager.ts`) -/

structure ModelRuntimeParams where
  temperature : ℚ
  topP : ℚ
  topK : ℚ
  maxTokens : ℚ
  contextWindow : ℚ
  gpuLayers : ℚ
deriving DecidableEq, Repr

/-- `Partial<ModelRuntimeParams>`: every field may be absent, and a present
field is an arbitrary JS number (possibly NaN or infinite). -/
structure PartialParams where
  temperature : Option JNum
  topP : Option JNum
  topK : Option JNum
  maxTokens : Option JNum
  contextWindow : Option JNum
  gpuLayers : Option JNum
deriving DecidableEq, Repr

/-- `DEFAULT_PARAMS` from `modelManager.ts`. -/
def DEFAULT_PARAMS : ModelRuntimeParams :=
  { temperature := 7/10
    topP := 19/20
    topK := 40
    maxTokens := 1024
    contextWindow := 8192
    gpuLayers := 0 }

/-- `normalizeParams` from `modelManager.ts`.  `none` is the
`undefined`-argument case (`if (!params) return base`); a missing field falls
back to the corresponding `DEFAULT_PARAMS` field via `??`. -/
def normalizeParams : Option PartialParams → ModelRuntimeParams
  | none => DEFAULT_PARAMS
  | some p =>
    { temperature := clamp (p.temperature.getD (.val DEFAULT_PARAMS.temperature)) 0 2
      topP := clamp (p.topP.getD (.val DEFAULT_PARAMS.topP)) 0 1
      topK := clamp (p.topK.getD (.val DEFAULT_PARAMS.topK)) 0 2000
      maxTokens := clamp (p.maxTokens.getD (.val DEFAULT_PARAMS.maxTokens)) 16 32768
      contextWindow := clamp (p.contextWindow.getD (.val DEFAULT_PARAMS.contextWindow)) 512 131072
      gpuLayers := clamp (p.gpuLayers.getD (.val DEFAULT_PARAMS.gpuLayers)) 0 64 }

/-- View a total parameter record as a partial one (every field present, all
values finite); this is how an in-memory record flows back into
`normalizeParams` when the TS code re-normalizes stored params. -/
def ModelRuntimeParams.toPartial (p : ModelRuntimeParams) : PartialParams :=
  { temperature := some (.val p.temperature)
    topP := some (.val p.topP)
    topK := some (.val p.topK)
    maxTokens := some (.val p.maxTokens)
    contextWindow := some (.val p.contextWindow)
    gpuLayers := some (.val p.gpuLayers) }

/-- The object spread `{...model.currentParams, ...params}` in
`updateModelParams`: a field present in `params` wins, otherwise the stored
value is kept. -/
def mergeParams (cur : ModelRuntimeParams) (p : PartialParams) : PartialParams :=
  { temperature := some (p.temperature.getD (.val cur.temperature))
    topP := some (p.topP.getD (.val cur.topP))
    topK := some (p.topK.getD (.val cur.topK))
    maxTokens := some (p.maxTokens.getD (.val cur.maxTokens))
    contextWindow := some (p.contextWindow.getD (.val cur.contextWindow))
    gpuLayers := some (p.gpuLayers.getD (.val cur.gpuLayers)) }

/-- The documented clamp ranges: temperature [0,2], topP [0,1], topK [0,2000],
maxTokens [16,32768], contextWindow [512,131072], gpuLayers [0,64]. -/
def paramsInRange (p : ModelRuntimeParams) : Prop :=
  0 ≤ p.temperature ∧ p.temperature ≤ 2 ∧
  0 ≤ p.topP ∧ p.topP ≤ 1 ∧
  0 ≤ p.topK ∧ p.topK ≤ 2000 ∧
  16 ≤ p.maxTokens ∧ p.maxTokens ≤ 32768 ∧
  512 ≤ p.contextWindow ∧ p.contextWindow ≤ 131072 ∧
  0 ≤ p.gpuLayers ∧ p.gpuLayers ≤ 64

instance (p : ModelRuntimeParams) : Decidable (paramsInRange p) := by
  unfold paramsInRange; infer_instance

/-! ## Model registry (`modelManager.ts`)

The registry is persisted in `models.json`; the filesystem is abstracted as
the list of existing file paths plus a size oracle.  `app.getPath('userData')`
is an environment constant, written here as the abstract prefix `/userData`. -/

def MODEL_DIR : String := "/userData/llama/models"

def MODELS_STATE_FILE : String := "/userData/llama/models.json"

def STATE_VERSION : ℕ := 1

inductive ModelSource where
  | builtin : ModelSource
  | huggingface : ModelSource
deriving DecidableEq, Repr

/-- `ManagedModel` from `modelManager.ts` (in-memory form: `currentParams` is
a total, normalized record).  ISO timestamp strings are abstracted as
naturals. -/
structure ManagedModel where
  id : String
  displayName : String
  source : ModelSource
  repoId : Option String
  fileName : Option String
  filePath : String
  sizeBytes : Option ℕ
  quantization : Option String
  contextWindow : Option ℚ
  description : Option String
  recommended : Option PartialParams
  currentParams : ModelRuntimeParams
  installed : Bool
  downloadedBytes : Option ℕ
  checksum : Option String
  createdAt : ℕ
  updatedAt : ℕ
deriving DecidableEq, Repr

/-- A model entry as parsed back from `models.json`: `currentParams` may be
absent or contain arbitrary JS numbers, and `installed` is the untrusted
persisted flag. -/
structure RawModel where
  id : String
  displayName : String
  source : ModelSource
  repoId : Option String
  fileName : Option String
  filePath : String
  sizeBytes : Option ℕ
  quantization : Option String
  contextWindow : Option ℚ
  description : Option String
  recommended : Option PartialParams
  currentParams : Option PartialParams
  installed : Bool
  downloadedBytes : Option ℕ
  checksum : Option String
  createdAt : ℕ
  updatedAt : ℕ
deriving DecidableEq, Repr

structure ModelsState where
  version : ℕ
  models : List ManagedModel
  activeModelId : Option String
  lastUsedModelId : Option String
deriving DecidableEq, Repr

structure RawState where
  version : ℕ
  models : List RawModel
  activeModelId : Option String
  lastUsedModelId : Option String
deriving DecidableEq, Repr

def ManagedModel.toRaw (m : ManagedModel) : RawModel :=
  { id := m.id, displayName := m.displayName, source := m.source,
    repoId := m.repoId, fileName := m.fileName, filePath := m.filePath,
    sizeBytes := m.sizeBytes, quantization := m.quantization,
    contextWindow := m.contextWindow, description := m.description,
    recommended := m.recommended,
    currentParams := some m.currentParams.toPartial,
    installed := m.installed, downloadedBytes := m.downloadedBytes,
    checksum := m.checksum, createdAt := m.createdAt, updatedAt := m.updatedAt }

def stateToRaw (s : ModelsState) : RawState :=
  { version := s.version, models := s.models.map ManagedModel.toRaw,
    activeModelId := s.activeModelId, lastUsedModelId := s.lastUsedModelId }

/-- The world the registry operates in: existing files, the parsed content of
`models.json` (`none` = missing or unparsable), the in-memory cache
(`cachedState`), the current time, and a `fs.statSync(..).size` oracle. -/
structure RegWorld where
  fsFiles : List String
  disk : Option RawState
  cached : Option ModelsState
  now : ℕ
  fsSize : String → ℕ

/-- `fs.existsSync`. -/
def fsExists (w : RegWorld) (p : String) : Bool := w.fsFiles.contains p

/-- `loadStateFromDisk`: basic normalization applied to the parsed JSON
(`version || STATE_VERSION`, clamp params, recompute `installed` from the
persisted flag plus file existence). -/
def loadStateFromDisk (w : RegWorld) : Option ModelsState :=
  w.disk.map fun existing =>
    { version := if existing.version = 0 then STATE_VERSION else existing.version
      models := existing.models.map fun m =>
        { id := m.id, displayName := m.displayName, source := m.source,
          repoId := m.repoId, fileName := m.fileName, filePath := m.filePath,
          sizeBytes := m.sizeBytes, quantization := m.quantization,
          contextWindow := m.contextWindow, description := m.description,
          recommended := m.recommended,
          currentParams := normalizeParams m.currentParams,
          installed := m.installed && (m.filePath ≠ "") && fsExists w m.filePath,
          downloadedBytes := m.downloadedBytes, checksum := m.checksum,
          createdAt := m.createdAt, updatedAt := m.updatedAt }
      activeModelId := existing.activeModelId
      lastUsedModelId := existing.lastUsedModelId }

/-- `persistState`: stamp the version, refresh the cache, atomically rewrite
`models.json`. -/
def persistW (w : RegWorld) (s : ModelsState) : RegWorld :=
  let withVersion := { s with version := STATE_VERSION }
  { w with cached := some withVersion, disk := some (stateToRaw withVersion) }

/-- The fixed parameter seed of the builtin Qwen3 entry in
`computeInitialState`. -/
def qwenSeedParams : PartialParams :=
  { temperature := some (.val (3/5)), topP := some (.val (9/10)),
    topK := none, maxTokens := some (.val 1024),
    contextWindow := some (.val 8192), gpuLayers := none }

def QWEN_STATE_PATH : String := MODEL_DIR ++ "/Qwen3-4B-Q4_K_M.gguf"

/-- `computeInitialState`: first-run bootstrap from the single builtin model
descriptor, `installed` derived from file existence. -/
def computeInitialState (w : RegWorld) : ModelsState :=
  let qwenExists := fsExists w QWEN_STATE_PATH
  let qwenModel : ManagedModel :=
    { id := "Qwen/Qwen3-4B-Q4_K_M"
      displayName := "Qwen3-4B Q4_K_M (Default)"
      source := .builtin
      repoId := some "Qwen/Qwen3-4B-GGUF"
      fileName := some "Qwen3-4B-Q4_K_M.gguf"
      filePath := QWEN_STATE_PATH
      sizeBytes := if qwenExists then some (w.fsSize QWEN_STATE_PATH) else none
      quantization := some "Q4_K_M"
      contextWindow := some 8192
      description := some "Default starter model installed with MyDeviceAI Desktop."
      recommended := some qwenSeedParams
      currentParams := normalizeParams (some qwenSeedParams)
      installed := qwenExists
      downloadedBytes := none
      checksum := none
      createdAt := w.now
      updatedAt := w.now }
  let activeModelId := if qwenExists then some qwenModel.id else none
  { version := STATE_VERSION, models := [qwenModel],
    activeModelId := activeModelId, lastUsedModelId := activeModelId }

/-- The `activeModelId` validation/self-heal applied on load: keep a non-null
id only if it names an installed model, otherwise (or when null) fall back to
the first installed model, or null. -/
def selectActive (models : List ManagedModel) (act : Option String) : Option String :=
  let a1 : Option String :=
    match act with
    | some aid =>
      if (models.find? fun m => m.id == aid && m.installed).isSome
      then some aid else none
    | none => none
  match a1 with
  | some aid => some aid
  | none => (models.find? fun m => m.installed).map fun m => m.id

/-- The load-path normalization inside `ensureState`: recompute `installed`
from disk for every model, re-clamp params, self-heal the active id. -/
def normalizeLoaded (w : RegWorld) (disk0 : ModelsState) : ModelsState :=
  let models := disk0.models.map fun m =>
    { m with
      installed := (m.filePath ≠ "") && fsExists w m.filePath
      currentParams := normalizeParams (some m.currentParams.toPartial) }
  let a2 := selectActive models disk0.activeModelId
  { version := STATE_VERSION, models := models, activeModelId := a2,
    lastUsedModelId :=
      match disk0.lastUsedModelId with
      | some x => some x
      | none => a2 }

/-- `ensureState`: return the cache if present; otherwise load from disk,
recompute `installed` for every model, validate/self-heal `activeModelId`,
persist the normalized state; bootstrap when no valid file exists. -/
def ensureState (w : RegWorld) : ModelsState × RegWorld :=
  match w.cached with
  | some s => (s, w)
  | none =>
    match loadStateFromDisk w with
    | some disk0 =>
      let normalized := normalizeLoaded w disk0
      (normalized, persistW w normalized)
    | none =>
      let initial := computeInitialState w
      (initial, persistW w initial)

/-- The single-active-model enforcement block at the end of `updateState`. -/
def healActive (s : ModelsState) : ModelsState :=
  match s.activeModelId with
  | none => s
  | some aid =>
    if (s.models.find? fun m => m.id == aid && m.installed).isSome then s
    else
      match s.models.find? fun m => m.installed with
      | some m => { s with activeModelId := some m.id }
      | none => { s with activeModelId := none }

/-- `updateState`: load (or reuse) state, run the mutator, enforce the
active-model invariant, persist.  A throwing mutator (modelled as `.error`)
skips enforcement and persistence; all mutators in the source throw before
mutating, so the cache is untouched on error. -/
def updateState (w : RegWorld) (mutator : ModelsState → Except String ModelsState) :
    Except String ModelsState × RegWorld :=
  let (s, w1) := ensureState w
  match mutator s with
  | .error e => (.error e, w1)
  | .ok s1 =>
    let s2 := healActive s1
    (.ok s2, persistW w1 s2)

structure SetActiveResult where
  ok : Bool
  activeModelId : Option String
  error : Option String
deriving DecidableEq, Repr

/-- The mutator passed to `updateState` by `setActiveModel`. -/
def setActiveMut (id : String) (s : ModelsState) : Except String ModelsState :=
  match s.models.find? fun m => m.id == id with
  | none => .error ("Model not found: " ++ id)
  | some m =>
    if !m.installed then .error ("Model not installed: " ++ id)
    else .ok { s with activeModelId := some id, lastUsedModelId := some id }

/-- `setActiveModel`. -/
def setActiveModel (w : RegWorld) (id : String) : SetActiveResult × RegWorld :=
  let (r, w1) := updateState w (setActiveMut id)
  match r with
  | .ok s2 => ({ ok := true, activeModelId := s2.activeModelId, error := none }, w1)
  | .error e => ({ ok := false, activeModelId := none, error := some e }, w1)

/-- In-place mutation of the model object returned by `models.find(...)`:
only the first entry with the given id is replaced. -/
def updateFirst (l : List ManagedModel) (id : String) (f : ManagedModel → ManagedModel) :
    List ManagedModel :=
  match l with
  | [] => []
  | m :: rest => if m.id == id then f m :: rest else m :: updateFirst rest id f

structure UpdateParamsResult where
  ok : Bool
  model : Option ManagedModel
  error : Option String
deriving DecidableEq, Repr

/-- The in-place update applied to the found model by `updateModelParams`. -/
def paramUpdater (p : PartialParams) (now : Nat) (m : ManagedModel) : ManagedModel :=
  { m with
    currentParams := normalizeParams (some (mergeParams m.currentParams p))
    updatedAt := now }

/-- The mutator passed to `updateState` by `updateModelParams`. -/
def updateParamsMut (id : String) (p : PartialParams) (now : Nat) (s : ModelsState) :
    Except String ModelsState :=
  match s.models.find? fun m => m.id == id with
  | none => .error ("Model not found: " ++ id)
  | some _ =>
    .ok { s with models := updateFirst s.models id (paramUpdater p now) }

/-- `updateModelParams`: merge the partial update over the stored params,
re-clamp every field, bump `updatedAt`, persist. -/
def updateModelParams (w : RegWorld) (id : String) (p : PartialParams) :
    UpdateParamsResult × RegWorld :=
  let (r, w1) := updateState w (updateParamsMut id p w.now)
  match r with
  | .ok s2 => ({ ok := true, model := s2.models.find? fun m => m.id == id, error := none }, w1)
  | .error e => ({ ok := false, model := none, error := some e }, w1)

/-- JS `a || b` on strings (empty string is falsy). -/
def strOr (a : Option String) (b : String) : String :=
  match a with
  | some s => if s = "" then b else s
  | none => b

/-- JS `a || b` where both sides are possibly-absent strings. -/
def optStrOr (a : Option String) (b : Option String) : Option String :=
  match a with
  | some s => if s = "" then b else some s
  | none => b

def emptyPartial : PartialParams :=
  { temperature := none, topP := none, topK := none,
    maxTokens := none, contextWindow := none, gpuLayers := none }

structure HfDownloadOptions where
  repoId : String
  fileName : String
  displayName : Option String
  quantization : Option String
  contextWindow : Option ℚ
deriving DecidableEq, Repr

structure DownloadResult where
  ok : Bool
  model : Option ManagedModel
  error : Option String
deriving DecidableEq, Repr

/-- The update applied to an already-registered entry on re-download. -/
def hfUpdater (opts : HfDownloadOptions) (size now : Nat) (existing : ManagedModel) :
    ManagedModel :=
  { existing with
    displayName :=
      strOr opts.displayName
        (strOr (some existing.displayName)
          (opts.repoId ++ " / " ++ opts.fileName))
    source := .huggingface
    repoId := some opts.repoId
    fileName := some opts.fileName
    filePath := MODEL_DIR ++ "/" ++ opts.fileName
    sizeBytes := some size
    quantization := optStrOr opts.quantization existing.quantization
    contextWindow :=
      match opts.contextWindow with
      | some c => some c
      | none => existing.contextWindow
    installed := true
    downloadedBytes := some size
    currentParams := normalizeParams (some existing.currentParams.toPartial)
    updatedAt := now }

/-- The fresh entry registered for a first-time download. -/
def hfNewModel (opts : HfDownloadOptions) (size now : Nat) : ManagedModel :=
  { id := opts.repoId ++ "/" ++ opts.fileName
    displayName := strOr opts.displayName (opts.repoId ++ " / " ++ opts.fileName)
    source := .huggingface
    repoId := some opts.repoId
    fileName := some opts.fileName
    filePath := MODEL_DIR ++ "/" ++ opts.fileName
    sizeBytes := some size
    quantization := opts.quantization
    contextWindow := opts.contextWindow
    description := none
    recommended := some emptyPartial
    currentParams := normalizeParams none
    installed := true
    downloadedBytes := some size
    checksum := none
    createdAt := now
    updatedAt := now }

/-- The upsert mutator passed to `updateState` by `downloadHfModel`: update
the existing entry keyed by `"repoId/fileName"`, or append a new one and
auto-activate it when no model is active. -/
def downloadUpsertMut (opts : HfDownloadOptions) (size now : Nat) (s : ModelsState) :
    Except String ModelsState :=
  let id := opts.repoId ++ "/" ++ opts.fileName
  match s.models.find? fun m => m.id == id with
  | some _ =>
    .ok { s with models := updateFirst s.models id (hfUpdater opts size now) }
  | none =>
    .ok { s with
      models := s.models ++ [hfNewModel opts size now]
      activeModelId :=
        if s.activeModelId = none then some id else s.activeModelId
      lastUsedModelId :=
        if s.activeModelId = none then some id else s.lastUsedModelId }

/-- The registration tail of `downloadHfModel`, entered after the temp-file
download succeeded and was renamed to `MODEL_DIR/<fileName>`. -/
def downloadHfRun (w : RegWorld) (opts : HfDownloadOptions) (size : ℕ) :
    DownloadResult × RegWorld :=
  match updateState { w with fsFiles := (MODEL_DIR ++ "/" ++ opts.fileName) :: w.fsFiles }
      (downloadUpsertMut opts size w.now) with
  | (.ok s2, w1) =>
    ({ ok := true,
       model := s2.models.find? fun m => m.id == opts.repoId ++ "/" ++ opts.fileName,
       error := none }, w1)
  | (.error e, w1) => ({ ok := false, model := none, error := some e }, w1)

/-- `downloadHfModel`: download to `<dest>.download` and rename into place,
then upsert the registry entry keyed by `"repoId/fileName"` (see
`downloadUpsertMut`).  `dlOk` scripts whether the streamed download
succeeds and `size` is the downloaded file's size. -/
def downloadHfModel (w : RegWorld) (opts : HfDownloadOptions)
    (dlOk : Bool) (size : ℕ) : DownloadResult × RegWorld :=
  if opts.repoId = "" || opts.fileName = "" then
    ({ ok := false, model := none, error := some "repoId and fileName are required" }, w)
  else
    if !dlOk then
      ({ ok := false, model := none, error := some "Download failed" }, w)
    else downloadHfRun w opts size

/-! ### Operation sequences over the registry -/

inductive RegOp where
  | ensure : RegOp
  | setActive (id : String) : RegOp
  | updateParams (id : String) (p : PartialParams) : RegOp
  | downloadHf (opts : HfDownloadOptions) (dlOk : Bool) (size : ℕ) : RegOp

def regStep (w : RegWorld) (op : RegOp) : RegWorld :=
  match op with
  | .ensure => (ensureState w).2
  | .setActive id => (setActiveModel w id).2
  | .updateParams id p => (updateModelParams w id p).2
  | .downloadHf opts dlOk size => (downloadHfModel w opts dlOk size).2

/-- Invariant A: `activeModelId` is either null or the id of a model in the
list whose `installed` flag is true. -/
def stateInvB (s : ModelsState) : Bool :=
  match s.activeModelId with
  | none => true
  | some aid => (s.models.find? fun m => m.id == aid && m.installed).isSome

/-! ## Streaming downloads with redirect handling

Both modules define a `downloadFile`.  The network is scripted as the list of
HTTP responses the server returns to the successive requests; each response
the client consumes corresponds to one issued request. -/

inductive HttpResp where
  | redirect (location : String) : HttpResp
  | ok (body : String) : HttpResp
  | fail (code : ℕ) : HttpResp
deriving DecidableEq, Repr

inductive DlResult where
  | success (body : String) : DlResult
  | error (msg : String) : DlResult
  | noResponse : DlResult
deriving DecidableEq, Repr

namespace LlamaSetup

/-- `downloadFile` from `llamaSetup.ts`: a 3xx response with a truthy
`Location` header re-invokes `downloadFile` recursively — there is no
redirect counter of any kind.  Returns the number of issued requests and the
outcome. -/
def downloadFile : List HttpResp → ℕ × DlResult
  | [] => (1, .noResponse)
  | .redirect loc :: rest =>
    if loc = "" then (1, .error "Download failed")
    else
      let (n, r) := downloadFile rest
      (n + 1, r)
  | .ok body :: _ => (1, .success body)
  | .fail _ :: _ => (1, .error "Download failed")

end LlamaSetup

namespace ModelManager

/-- `downloadFile` from `modelManager.ts`: same redirect handling but with a
mutable `redirectCount` checked against `maxRedirects` (default 5). -/
def downloadFile (maxRedirects : ℕ) : List HttpResp → ℕ → ℕ × DlResult
  | [], _ => (1, .noResponse)
  | .redirect loc :: rest, redirectCount =>
    if loc = "" then (1, .error "Download failed")
    else if maxRedirects < redirectCount + 1 then (1, .error "Too many redirects")
    else
      let (n, r) := downloadFile maxRedirects rest (redirectCount + 1)
      (n + 1, r)
  | .ok body :: _, _ => (1, .success body)
  | .fail _ :: _, _ => (1, .error "Download failed")

end ModelManager

/-- A chain of `n` redirects followed by a success response. -/
def redirChain (n : ℕ) : List HttpResp :=
  List.replicate n (.redirect "u") ++ [.ok "b"]

/-! ## Persisted-file write traces (atomicity)

The two state-file writers are modelled at the level of the filesystem
syscalls they issue, so crash behaviour can be analysed: a crash may happen
after any prefix of the trace, and may additionally leave a torn (partial)
content at the path of an in-progress `write`. -/

inductive FsOp where
  | write (path : String) (content : String) : FsOp
  | rename (src dst : String) : FsOp
deriving DecidableEq, Repr

def METADATA_FILE : String := "/userData/llama/install.json"

/-- `writeJsonAtomic` from `modelManager.ts`: write `<file>.tmp`, then rename
it over `file`. -/
def writeJsonAtomicOps (file content : String) : List FsOp :=
  [.write (file ++ ".tmp") content, .rename (file ++ ".tmp") file]

/-- `writeInstallMetadata` from `llamaSetup.ts`: a single direct
`fs.writeFileSync(METADATA_FILE, ...)` — no temp file, no rename. -/
def writeInstallMetadataOps (content : String) : List FsOp :=
  [.write METADATA_FILE content]

def FsMap := String → Option String

def applyOp (fs : FsMap) : FsOp → FsMap
  | .write p c => fun q => if q = p then some c else fs q
  | .rename s d => fun q => if q = d then fs s else if q = s then none else fs q

def applyOps (fs : FsMap) : List FsOp → FsMap
  | [] => fs
  | op :: rest => applyOps (applyOp fs op) rest

/-- The filesystem visible after a crash: the first `k` operations completed,
and if the next operation was a `write`, it may have left the torn content
`t` at its target path. -/
def crashFs (fs0 : FsMap) (ops : List FsOp) (k : ℕ) (torn : Option String) : FsMap :=
  let pre := applyOps fs0 (ops.take k)
  match torn, ops.drop k with
  | some t, .write p _ :: _ => fun q => if q = p then some t else pre q
  | _, _ => pre

/-! ## Install pipeline (`llamaSetup.ts`)

Network responses, archive-extraction results, and the filesystem are passed
explicitly; the returned natural number counts issued network requests. -/

inductive Platform where
  | windows : Platform
  | linux : Platform
  | macos : Platform
deriving DecidableEq, Repr

inductive Arch where
  | x64 : Arch
  | arm64 : Arch
deriving DecidableEq, Repr

/-- `getPlatform`: map `process.platform` into the supported-OS set. -/
def getPlatform (platformStr : String) : Option Platform :=
  if platformStr = "win32" then some .windows
  else if platformStr = "linux" then some .linux
  else if platformStr = "darwin" then some .macos
  else none

/-- `getArch`: map `process.arch` into the supported-architecture set. -/
def getArch (archStr : String) : Option Arch :=
  if archStr = "x64" then some .x64
  else if archStr = "arm64" then some .arm64
  else none

/-- `String.prototype.toLowerCase`, character by character (executable in
the kernel, unlike `String.toLower`). -/
def strToLower (s : String) : String :=
  ⟨s.data.map Char.toLower⟩

/-- `String.prototype.endsWith`. -/
def strEndsWith (s suffix : String) : Bool :=
  suffix.data.isSuffixOf s.data

/-- Substring containment on strings (`String.prototype.includes`). -/
def hasSubstr (s pat : String) : Bool :=
  s.data.tails.any fun t => pat.data.isPrefixOf t

/-- `pickAssetNamePattern`: the release-asset filename predicate for a
platform/arch pair, by lowercased suffix and token matching. -/
def pickAssetNamePattern (platform : Platform) (arch : Arch) (rawName : String) : Bool :=
  match platform with
  | .windows =>
    if arch ≠ .x64 then false
    else strEndsWith (strToLower rawName) ".zip" &&
      hasSubstr (strToLower rawName) "-win-vulkan-x64"
  | .linux =>
    if arch ≠ .x64 then false
    else strEndsWith (strToLower rawName) ".zip" &&
      hasSubstr (strToLower rawName) "-ubuntu-vulkan-x64"
  | .macos =>
    if arch ≠ .arm64 then false
    else strEndsWith (strToLower rawName) ".zip" &&
      hasSubstr (strToLower rawName) "-macos-arm64"

structure GithubAsset where
  name : String
  browser_download_url : String
deriving DecidableEq, Repr

structure GithubRelease where
  tag_name : String
  assets : List GithubAsset
deriving DecidableEq, Repr

def INSTALL_ROOT : String := "/userData/llama"

def INSTALL_DIR : String := "/userData/llama/bin"

def QWEN3_MODEL_PATH : String := MODEL_DIR ++ "/Qwen3-4B-Q4_K_M.gguf"

structure InstallMeta where
  version : String
  binaryPath : String
deriving DecidableEq, Repr

/-- Install-side filesystem: existing file paths plus the parsed content of
`install.json` (`none` = absent or unparsable). -/
structure InstallFs where
  files : List String
  metadata : Option InstallMeta
deriving DecidableEq, Repr

structure LlamaInstallStatus where
  installed : Bool
  version : Option String
  binaryPath : Option String
  error : Option String
deriving DecidableEq, Repr

/-- Install-side environment oracles: host identifiers, the GitHub releases
response, whether streamed downloads succeed, and the result of searching an
extracted archive for the `llama-server` executable. -/
structure InstallEnv where
  platformStr : String
  archStr : String
  release : Except String GithubRelease
  downloadOk : Bool
  locatedBinary : String → Option String

/-- `readInstallMetadata`: parse `install.json`; valid only if it names an
existing binary. -/
def readInstallMetadata (fsI : InstallFs) : LlamaInstallStatus :=
  match fsI.metadata with
  | some d =>
    if d.binaryPath ≠ "" && fsI.files.contains d.binaryPath then
      { installed := true, version := some d.version,
        binaryPath := some d.binaryPath, error := none }
    else
      { installed := false, version := none, binaryPath := none, error := none }
  | none => { installed := false, version := none, binaryPath := none, error := none }

/-- `getLlamaInstallStatus`: metadata read plus a redundant re-stat of the
binary. -/
def getLlamaInstallStatus (fsI : InstallFs) : LlamaInstallStatus :=
  let status := readInstallMetadata fsI
  match status.binaryPath with
  | some bp => if status.installed && fsI.files.contains bp then status
               else { installed := false, version := none, binaryPath := none, error := none }
  | none => { installed := false, version := none, binaryPath := none, error := none }

def platformName : Platform → String
  | .windows => "windows"
  | .linux => "linux"
  | .macos => "macos"

def archName : Arch → String
  | .x64 => "x64"
  | .arm64 => "arm64"

/-- `inferBinaryPathFromAsset`: raw `.exe` assets are used as-is; `.zip`
assets are extracted and searched for `llama-server` (the search outcome is
the environment's `locatedBinary` oracle; a found binary exists on disk
afterwards); anything else falls back to the asset path. -/
def inferBinaryPathFromAsset (env : InstallEnv) (platform : Platform)
    (fsI : InstallFs) (assetPath : String) : Except String (String × InstallFs) :=
  if platform = .windows && strEndsWith (strToLower assetPath) ".exe" then .ok (assetPath, fsI)
  else if strEndsWith (strToLower assetPath) ".zip" then
    match env.locatedBinary assetPath with
    | some b => .ok (b, { fsI with files := b :: fsI.files })
    | none => .error ("llama-server binary not found in extracted archive: " ++ assetPath)
  else .ok (assetPath, fsI)

/-- `downloadModelIfNeeded`: skip when the default model file exists;
otherwise download to a `.download` temp path and rename into place
(one network request). -/
def downloadModelIfNeededI (env : InstallEnv) (fsI : InstallFs) :
    Except String String × InstallFs × ℕ :=
  if fsI.files.contains QWEN3_MODEL_PATH then (.ok QWEN3_MODEL_PATH, fsI, 0)
  else if env.downloadOk then
    (.ok QWEN3_MODEL_PATH, { fsI with files := QWEN3_MODEL_PATH :: fsI.files }, 1)
  else (.error "Download failed", fsI, 1)

def notInstalledStatus (e : Option String) : LlamaInstallStatus :=
  { installed := false, version := none, binaryPath := none, error := e }

/-- `installLatestLlama`: the full install pipeline — platform/arch guard,
release fetch, asset filter, download, extract/locate, metadata persist,
default-model download.  There is no check for an already-valid install
anywhere in this function. -/
def installLatestLlama (env : InstallEnv) (fsI : InstallFs) :
    LlamaInstallStatus × InstallFs × ℕ :=
  match getPlatform env.platformStr with
  | none => (notInstalledStatus (some ("Unsupported platform: " ++ env.platformStr)), fsI, 0)
  | some platform =>
    match getArch env.archStr with
    | none => (notInstalledStatus (some ("Unsupported architecture: " ++ env.archStr)), fsI, 0)
    | some arch =>
      match env.release with
      | .error e =>
        (notInstalledStatus (some ("Failed to install llama.cpp: " ++ e)), fsI, 1)
      | .ok release =>
        match release.assets.filter (fun a => pickAssetNamePattern platform arch a.name) with
        | [] =>
          (notInstalledStatus (some
            ("No suitable llama.cpp asset found for " ++ platformName platform ++ "/" ++
              archName arch ++ " in latest release " ++ release.tag_name)), fsI, 1)
        | asset :: _ =>
          if env.downloadOk = false then
            (notInstalledStatus (some "Failed to install llama.cpp: Download failed"), fsI, 2)
          else
            match inferBinaryPathFromAsset env platform
                { fsI with files := (INSTALL_DIR ++ "/" ++ asset.name) :: fsI.files }
                (INSTALL_DIR ++ "/" ++ asset.name) with
            | .error e =>
              (notInstalledStatus (some ("Failed to install llama.cpp: " ++ e)),
               { fsI with files := (INSTALL_DIR ++ "/" ++ asset.name) :: fsI.files }, 2)
            | .ok (binaryPath, fs2) =>
              match downloadModelIfNeededI env
                  { fs2 with metadata := some ⟨release.tag_name, binaryPath⟩ } with
              | (.error e, fs4, n) =>
                (notInstalledStatus (some ("Failed to install llama.cpp: " ++ e)), fs4, 2 + n)
              | (.ok _, fs4, n) =>
                ({ installed := true, version := some release.tag_name,
                   binaryPath := some binaryPath, error := none }, fs4, 2 + n)

/-- The install-then-revalidate tail of `ensureLlamaBinary`. -/
def installAndValidate (env : InstallEnv) (fsI : InstallFs) :
    LlamaInstallStatus × InstallFs × ℕ :=
  match installLatestLlama env fsI with
  | (installed, fs1, n) =>
    match installed.binaryPath with
    | some bp =>
      if installed.installed && fs1.files.contains bp then (installed, fs1, n)
      else (notInstalledStatus (some (strOr installed.error "Failed to install llama.cpp")), fs1, n)
    | none =>
      (notInstalledStatus (some (strOr installed.error "Failed to install llama.cpp")), fs1, n)

/-- `ensureLlamaBinary`: reuse a valid existing install (metadata present and
binary file exists) without touching the network; otherwise run the full
install pipeline. -/
def ensureLlamaBinary (env : InstallEnv) (fsI : InstallFs) :
    LlamaInstallStatus × InstallFs × ℕ :=
  let existing := getLlamaInstallStatus fsI
  match existing.binaryPath with
  | some bp =>
    if existing.installed && fsI.files.contains bp then (existing, fsI, 0)
    else installAndValidate env fsI
  | none => installAndValidate env fsI

/-! ## Server supervisor (`llamaSetup.ts`)

The module-level mutable variables `llamaServerProcess`, `llamaServerPort`,
`llamaServerCurrentModelPath`, `llamaServerStartTime` and the log ring buffer
form the supervisor state. -/

structure SupState where
  proc : Option ℕ
  port : Option ℕ
  currentModelPath : Option String
  startTime : Option ℕ
  logs : List String
deriving DecidableEq, Repr

def initialSupState : SupState :=
  { proc := none, port := none, currentModelPath := none, startTime := none, logs := [] }

/-- Supervisor environment: the registry's active model, the install-side
environment, the stream of random port candidates with their availability,
the clock and the pid the OS would assign to a spawned process. -/
structure SupEnv where
  activeModel : Option ManagedModel
  installEnv : InstallEnv
  portCandidates : List ℕ
  portOk : ℕ → Bool
  now : ℕ
  pid : ℕ

/-- `pickAvailablePort`: probe up to 10 random candidates. -/
def pickAvailablePort (env : SupEnv) : Except String ℕ :=
  match (env.portCandidates.take 10).find? env.portOk with
  | some p => .ok p
  | none => .error "No available port found for llama server after multiple attempts"

structure SpawnOut where
  res : Except String ℕ
  st : SupState
  spawns : ℕ
  kills : ℕ
deriving Repr

/-- `spawnLlamaServer`: reuse a live process with a known port; a process
with an unknown port is killed first; otherwise pick a port and spawn,
recording handle, port and start time (but not the model path, which the
caller records). -/
def spawnFresh (env : SupEnv) (st : SupState) (kills : ℕ) : SpawnOut :=
  match pickAvailablePort env with
  | .error e => { res := .error e, st := st, spawns := 0, kills := kills }
  | .ok port =>
    { res := .ok port,
      st := { st with proc := some env.pid, port := some port, startTime := some env.now },
      spawns := 1, kills := kills }

def spawnLlamaServer (env : SupEnv) (st : SupState) : SpawnOut :=
  if st.proc.isSome then
    if st.port.getD 0 ≠ 0 then
      { res := .ok (st.port.getD 0), st := st, spawns := 0, kills := 0 }
    else
      spawnFresh env { st with proc := none, port := none } 1
  else
    spawnFresh env st 0

/-- `stopLlamaServer`: idempotent; kills the process if any and
unconditionally clears handle, port, model path and start time. -/
def stopLlamaServer (st : SupState) : SupState × ℕ :=
  if st.proc.isSome then
    ({ st with proc := none, port := none, currentModelPath := none, startTime := none }, 1)
  else (st, 0)

/-- The `proc.on('exit', ...)` handler: clears the process handle and the
port — and nothing else. -/
def onProcExit (st : SupState) : SupState :=
  { st with proc := none, port := none }

structure ServerStatus where
  running : Bool
  port : Option ℕ
  modelPath : Option String
  modelName : Option String
  uptime : Option ℕ
deriving DecidableEq, Repr

/-- `getLlamaServerStatus`: live snapshot from the in-memory supervisor
state plus the registry's active-model display name. -/
def getLlamaServerStatus (env : SupEnv) (st : SupState) : ServerStatus :=
  { running := st.proc.isSome
    port := st.port
    modelPath := st.currentModelPath
    modelName :=
      match env.activeModel with
      | some m => if m.displayName = "" then none else some m.displayName
      | none => none
    uptime := st.startTime.map fun t0 => env.now - t0 }

inductive EnsureResult where
  | ok (endpoint : String) : EnsureResult
  | err (msg : String) : EnsureResult
  | thrown (msg : String) : EnsureResult
deriving DecidableEq, Repr

structure EnsureOut where
  res : EnsureResult
  st : SupState
  fs : InstallFs
  spawns : ℕ
  kills : ℕ
  requests : ℕ
deriving Repr

/-- The model-resolution prologue of `ensureLlamaServer`: active installed
model wins (context window defaulted through `|| 8192`), otherwise fall back
to the default Qwen3 model, downloading it if needed. -/
def fallbackModel (env : SupEnv) (fsI : InstallFs) :
    Except String (String × ℚ) × InstallFs × ℕ :=
  match downloadModelIfNeededI env.installEnv fsI with
  | (.ok p, fs1, n) => (.ok (p, 8192), fs1, n)
  | (.error e, fs1, n) => (.error e, fs1, n)

def resolveModelPath (env : SupEnv) (fsI : InstallFs) :
    Except String (String × ℚ) × InstallFs × ℕ :=
  match env.activeModel with
  | some m =>
    if m.installed && m.filePath ≠ "" then
      (.ok (m.filePath,
        if m.currentParams.contextWindow = 0 then 8192 else m.currentParams.contextWindow),
       fsI, 0)
    else fallbackModel env fsI
  | none => fallbackModel env fsI

/-- The "active model changed" branch of `ensureLlamaServer`: stop the old
process and clear the log buffer; a no-op when nothing is running or the
model is unchanged. -/
def stopIfModelChanged (st : SupState) (modelPath : String) : SupState × ℕ :=
  if st.proc.isSome && !(st.currentModelPath == some modelPath) then
    ({ (stopLlamaServer st).1 with logs := [] }, (stopLlamaServer st).2)
  else (st, 0)

/-- The spawn tail of `ensureLlamaServer`: spawn, record the model path on
success, wrap a spawn failure into the structured error result. -/
def startWithModel (env : SupEnv) (fs2 : InstallFs) (st1 : SupState) (kills : ℕ)
    (modelPath : String) (reqs : ℕ) : EnsureOut :=
  match (spawnLlamaServer env st1).res with
  | .ok port =>
    { res := .ok ("http://localhost:" ++ toString port),
      st := { (spawnLlamaServer env st1).st with currentModelPath := some modelPath },
      fs := fs2, spawns := (spawnLlamaServer env st1).spawns,
      kills := kills + (spawnLlamaServer env st1).kills, requests := reqs }
  | .error e =>
    { res := .err ("Failed to start llama-server: " ++ e),
      st := (spawnLlamaServer env st1).st, fs := fs2,
      spawns := (spawnLlamaServer env st1).spawns,
      kills := kills + (spawnLlamaServer env st1).kills, requests := reqs }

/-- `ensureLlamaServer`: reuse a running server whose model path matches;
stop (and clear logs) on model change; ensure the binary; spawn; record the
model path. -/
def ensureLlamaServer (env : SupEnv) (fsI : InstallFs) (st : SupState) : EnsureOut :=
  match resolveModelPath env fsI with
  | (.error e, fs1, n1) =>
    { res := .thrown e, st := st, fs := fs1, spawns := 0, kills := 0, requests := n1 }
  | (.ok (modelPath, _cw), fs1, n1) =>
    if st.proc.isSome && (st.port.getD 0 != 0) && (st.currentModelPath == some modelPath) then
      { res := .ok ("http://localhost:" ++ toString (st.port.getD 0)),
        st := st, fs := fs1, spawns := 0, kills := 0, requests := n1 }
    else
      match ensureLlamaBinary env.installEnv fs1 with
      | (install, fs2, n2) =>
        match install.binaryPath with
        | some _bp =>
          if install.installed then
            startWithModel env fs2 (stopIfModelChanged st modelPath).1
              (stopIfModelChanged st modelPath).2 modelPath (n1 + n2)
          else
            { res := .err (strOr install.error "llama.cpp not installed"),
              st := (stopIfModelChanged st modelPath).1, fs := fs2, spawns := 0,
              kills := (stopIfModelChanged st modelPath).2, requests := n1 + n2 }
        | none =>
          { res := .err (strOr install.error "llama.cpp not installed"),
            st := (stopIfModelChanged st modelPath).1, fs := fs2, spawns := 0,
            kills := (stopIfModelChanged st modelPath).2, requests := n1 + n2 }

/-! ## Concrete worlds used by witnesses and counterexamples -/

/-- The world invariant: whatever the cache holds satisfies Invariant A, and
the persisted file mirrors the cache. -/
def RegWorldInv (w : RegWorld) : Prop :=
  ∀ s, w.cached = some s → stateInvB s = true ∧ w.disk = some (stateToRaw s)

def envInstallDummy : InstallEnv :=
  { platformStr := "linux", archStr := "x64", release := .error "offline",
    downloadOk := false, locatedBinary := fun _ => none }

def envC7 : SupEnv :=
  { activeModel := none, installEnv := envInstallDummy,
    portCandidates := [], portOk := fun _ => false, now := 10, pid := 2 }

def stC7 : SupState :=
  { proc := some 1, port := some 12345,
    currentModelPath := some "/userData/llama/models/m.gguf",
    startTime := some 5, logs := [] }

/-- Empty world: no files, no persisted state, cold cache. -/
def w0W : RegWorld :=
  { fsFiles := [], disk := none, cached := none, now := 0, fsSize := fun _ => 0 }

/-- The builtin entry as bootstrapped by `computeInitialState` in `w0W`
(model file absent, so not installed and not active). -/
def qwenInitialModel : ManagedModel :=
  { id := "Qwen/Qwen3-4B-Q4_K_M"
    displayName := "Qwen3-4B Q4_K_M (Default)"
    source := .builtin
    repoId := some "Qwen/Qwen3-4B-GGUF"
    fileName := some "Qwen3-4B-Q4_K_M.gguf"
    filePath := QWEN_STATE_PATH
    sizeBytes := none
    quantization := some "Q4_K_M"
    contextWindow := some 8192
    description := some "Default starter model installed with MyDeviceAI Desktop."
    recommended := some qwenSeedParams
    currentParams := normalizeParams (some qwenSeedParams)
    installed := false
    downloadedBytes := none
    checksum := none
    createdAt := 0
    updatedAt := 0 }

def sW : ModelsState :=
  { version := 1, models := [qwenInitialModel],
    activeModelId := none, lastUsedModelId := none }

/-- A partial update mixing NaN, an out-of-range value, an infinite value and
missing fields. -/
def pC3 : PartialParams :=
  { temperature := some .nan, topP := some (.val 5), topK := none,
    maxTokens := none, contextWindow := none, gpuLayers := some .negInf }

def rawC8Model : RawModel :=
  { id := "X/m.gguf", displayName := "m", source := .huggingface,
    repoId := some "X", fileName := some "m.gguf",
    filePath := MODEL_DIR ++ "/m.gguf", sizeBytes := none, quantization := none,
    contextWindow := none, description := none, recommended := none,
    currentParams := none, installed := true, downloadedBytes := none,
    checksum := none, createdAt := 0, updatedAt := 0 }

/-- A boot world whose persisted registry already contains the entry
`X/m.gguf` (previously downloaded), but whose weight file is gone. -/
def wC8start : RegWorld :=
  { fsFiles := [],
    disk := some { version := 1, models := [rawC8Model],
                   activeModelId := none, lastUsedModelId := none },
    cached := none, now := 0, fsSize := fun _ => 0 }

/-- The world after the registry loads: `X/m.gguf` present but not installed,
no active model. -/
def wC8 : RegWorld := regStep wC8start .ensure

def optsC8 : HfDownloadOptions :=
  { repoId := "X", fileName := "m.gguf", displayName := none,
    quantization := none, contextWindow := none }

def relC1 : GithubRelease :=
  { tag_name := "b7306",
    assets := [{ name := "llama-b7306-bin-ubuntu-vulkan-x64.zip",
                 browser_download_url := "u" }] }

def envC1 : InstallEnv :=
  { platformStr := "linux", archStr := "x64", release := .ok relC1,
    downloadOk := true,
    locatedBinary := fun _ => some (INSTALL_DIR ++ "/build/bin/llama-server") }

/-- A state in which a prior install fully succeeded: valid metadata, binary
on disk, default model on disk. -/
def fsC1 : InstallFs :=
  { files := [INSTALL_DIR ++ "/build/bin/llama-server", QWEN3_MODEL_PATH],
    metadata := some { version := "b7306",
                       binaryPath := INSTALL_DIR ++ "/build/bin/llama-server" } }

def fsC1b : InstallFs := { files := [QWEN3_MODEL_PATH], metadata := none }

def relC9 : GithubRelease :=
  { tag_name := "b7306",
    assets := [{ name := "llama-b7306-bin-win-vulkan-x64.zip", browser_download_url := "u1" },
               { name := "llama-b7306-bin-ubuntu-vulkan-x64.zip", browser_download_url := "u2" },
               { name := "llama-b7306-bin-macos-arm64.zip", browser_download_url := "u3" }] }

/-- A Windows-on-ARM host: both OS and architecture are individually
recognized, but the pair is not in the supported set. -/
def envC9 : InstallEnv :=
  { platformStr := "win32", archStr := "arm64", release := .ok relC9,
    downloadOk := true, locatedBinary := fun _ => none }

def fsC9 : InstallFs := { files := [], metadata := none }

def envC9bad : InstallEnv :=
  { platformStr := "sunos", archStr := "mips", release := .error "ignored",
    downloadOk := false, locatedBinary := fun _ => none }

def mC6 : ManagedModel :=
  { qwenInitialModel with installed := true }

def envC6 : SupEnv :=
  { activeModel := some mC6, installEnv := envC1,
    portCandidates := [12345], portOk := fun _ => true, now := 99, pid := 42 }


/-! # Lemmas and claim theorems -/

/-! ## Clamp lemmas -/

theorem clamp_le (n : JNum) {lo hi : ℚ} (h : lo ≤ hi) : clamp n lo hi ≤ hi := by
  cases n with
  | nan => exact h
  | posInf => exact le_refl hi
  | negInf => exact min_le_left hi lo
  | val q => exact min_le_left _ _

theorem le_clamp (n : JNum) {lo hi : ℚ} (h : lo ≤ hi) : lo ≤ clamp n lo hi := by
  cases n with
  | nan => exact le_refl lo
  | posInf => exact h
  | negInf => exact le_min h (le_refl lo)
  | val q => exact le_min h (le_max_left lo q)

theorem clamp_of_mem {q lo hi : ℚ} (h1 : lo ≤ q) (h2 : q ≤ hi) :
    clamp (.val q) lo hi = q := by
  simp [clamp, max_eq_right h1, min_eq_right h2]

theorem clamp_idem (n : JNum) {lo hi : ℚ} (h : lo ≤ hi) :
    clamp (.val (clamp n lo hi)) lo hi = clamp n lo hi :=
  clamp_of_mem (le_clamp n h) (clamp_le n h)

theorem normalizeParams_inRange (p : Option PartialParams) :
    paramsInRange (normalizeParams p) := by
  cases p with
  | none =>
      simp only [normalizeParams]
      refine ⟨?_, ?_, ?_, ?_, ?_, ?_, ?_, ?_, ?_, ?_, ?_, ?_⟩ <;> norm_num [DEFAULT_PARAMS]
  | some q =>
      refine ⟨?_, ?_, ?_, ?_, ?_, ?_, ?_, ?_, ?_, ?_, ?_, ?_⟩ <;>
        first
          | exact le_clamp _ (by norm_num)
          | exact clamp_le _ (by norm_num)

/-- Claim C10: `normalizeParams` is idempotent — normalizing an
already-normalized record is the identity, so every stored record is a fixed
point of clamping and re-clamping on a later write with no new values never
changes the stored parameters. -/
theorem C10_normalizeParams_idempotent (p : Option PartialParams) :
    normalizeParams (some (normalizeParams p).toPartial) = normalizeParams p := by
  obtain ⟨h1, h2, h3, h4, h5, h6, h7, h8, h9, h10, h11, h12⟩ := normalizeParams_inRange p
  have e : normalizeParams (some (normalizeParams p).toPartial) =
      { temperature := clamp (.val (normalizeParams p).temperature) 0 2
        topP := clamp (.val (normalizeParams p).topP) 0 1
        topK := clamp (.val (normalizeParams p).topK) 0 2000
        maxTokens := clamp (.val (normalizeParams p).maxTokens) 16 32768
        contextWindow := clamp (.val (normalizeParams p).contextWindow) 512 131072
        gpuLayers := clamp (.val (normalizeParams p).gpuLayers) 0 64 } := rfl
  rw [e, clamp_of_mem h1 h2, clamp_of_mem h3 h4, clamp_of_mem h5 h6,
    clamp_of_mem h7 h8, clamp_of_mem h9 h10, clamp_of_mem h11 h12]

/-! ## C5: redirect bounds of the two downloaders -/

theorem downloadFileLS_chain (n : ℕ) :
    LlamaSetup.downloadFile (redirChain n) = (n + 1, .success "b") := by
  induction n with
  | zero => rfl
  | succ k ih =>
    have hstep : redirChain (k + 1) = .redirect "u" :: redirChain k := by
      simp [redirChain, List.replicate_succ]
    rw [hstep]
    unfold LlamaSetup.downloadFile
    rw [if_neg (by decide)]
    rw [ih]

theorem downloadFileMM_chain (n : ℕ) : ∀ c : ℕ, c ≤ 5 →
    (c + n ≤ 5 → ModelManager.downloadFile 5 (redirChain n) c = (n + 1, .success "b")) ∧
    (5 < c + n → (ModelManager.downloadFile 5 (redirChain n) c).2 = .error "Too many redirects") := by
  induction n with
  | zero =>
    intro c hc
    refine ⟨fun _ => rfl, fun h => absurd h (by omega)⟩
  | succ k ih =>
    intro c hc
    have hstep : redirChain (k + 1) = .redirect "u" :: redirChain k := by
      simp [redirChain, List.replicate_succ]
    rw [hstep]
    unfold ModelManager.downloadFile
    rw [if_neg (by decide)]
    by_cases h5 : 5 < c + 1
    · have hc5 : c = 5 := by omega
      rw [if_pos h5]
      exact ⟨fun h => absurd h (by omega), fun _ => rfl⟩
    · rw [if_neg h5]
      obtain ⟨ihl, ihr⟩ := ih (c + 1) (by omega)
      constructor
      · intro hle
        rw [ihl (by omega)]
      · intro hgt
        rw [ihr (by omega)]

/-- Claim C5 counterexample: the installer-side `downloadFile` in
`llamaSetup.ts` follows a chain of 100 redirect responses all the way to the
final success (101 requests issued) instead of terminating with an error
after a small fixed redirect count — it has no redirect counter at all. -/
theorem C5_counterexample_unbounded_redirects :
    LlamaSetup.downloadFile (redirChain 100) = (101, .success "b") :=
  downloadFileLS_chain 100

/-- Claim C5 amended: the model-weight downloader (`modelManager.ts`) bounds
redirect following at 5 and fails any longer chain with "Too many
redirects"; the installer-asset downloader (`llamaSetup.ts`) follows every
finite redirect chain of any length with no bound. -/
theorem C5_redirect_bounds (n : ℕ) :
    LlamaSetup.downloadFile (redirChain n) = (n + 1, .success "b") ∧
    (n ≤ 5 → ModelManager.downloadFile 5 (redirChain n) 0 = (n + 1, .success "b")) ∧
    (5 < n → (ModelManager.downloadFile 5 (redirChain n) 0).2 = .error "Too many redirects") := by
  obtain ⟨hl, hr⟩ := downloadFileMM_chain n 0 (by omega)
  exact ⟨downloadFileLS_chain n, fun h => hl (by omega), fun h => hr (by omega)⟩

/-- Witness for C5: at chain length 6 the model-weight downloader fails with
"Too many redirects" while the installer downloader succeeds after 7
requests; at chain length 3 the model-weight downloader succeeds. -/
theorem C5_witness :
    LlamaSetup.downloadFile (redirChain 6) = (7, .success "b") ∧
    (ModelManager.downloadFile 5 (redirChain 6) 0).2 = .error "Too many redirects" ∧
    ModelManager.downloadFile 5 (redirChain 3) 0 = (4, .success "b") :=
  ⟨(C5_redirect_bounds 6).1, (C5_redirect_bounds 6).2.2 (by omega),
    (C5_redirect_bounds 3).2.1 (by omega)⟩

/-! ## C4: atomicity of the two persisted-file writers -/

theorem tmp_ne_file (file : String) : ¬ (file ++ ".tmp" = file) := by
  intro h
  have hlen := congrArg String.length h
  simp [String.length_append] at hlen
  exact absurd hlen (by decide)

theorem crashFs_late (fs0 : FsMap) (ops : List FsOp) (k : ℕ) (torn : Option String)
    (h : ops.length ≤ k) : crashFs fs0 ops k torn = applyOps fs0 ops := by
  unfold crashFs
  rw [List.take_of_length_le h, List.drop_eq_nil_of_le h]
  cases torn <;> rfl

/-- Claim C4 counterexample: `writeInstallMetadata` issues a single direct
write to `install.json` — no temp file, no rename — so a crash tearing that
write (here leaving the proper prefix "NEW" of the new content "NEWJSON")
exposes partial content at the metadata path: neither the previous value
"OLDJSON" nor the complete new value survives. -/
theorem C4_counterexample_install_metadata_direct_write :
    writeInstallMetadataOps "NEWJSON" = [.write METADATA_FILE "NEWJSON"] ∧
    crashFs (fun _ => some "OLDJSON") (writeInstallMetadataOps "NEWJSON") 0 (some "NEW")
      METADATA_FILE = some "NEW" ∧
    "NEW" ++ "JSON" = "NEWJSON" ∧ "NEW" ≠ "OLDJSON" ∧ "NEW" ≠ "NEWJSON" := by
  refine ⟨rfl, rfl, rfl, by decide, by decide⟩

/-- Claim C4 amended: the models-state writer `writeJsonAtomic` is genuinely
atomic — at every crash point, with any torn in-progress write, the target
file holds either its previous content or the complete new content; the
install-metadata writer instead writes the final path directly (see the
counterexample). -/
theorem C4_atomicity (fs0 : FsMap) (file content : String) (k : ℕ) (torn : Option String) :
    crashFs fs0 (writeJsonAtomicOps file content) k torn file = fs0 file ∨
    crashFs fs0 (writeJsonAtomicOps file content) k torn file = some content := by
  have h' : ¬ (file = file ++ ".tmp") := fun h => tmp_ne_file file (Eq.symm h)
  match k with
  | 0 =>
    left
    cases torn with
    | none => rfl
    | some t =>
      show (if file = file ++ ".tmp" then some t
            else applyOps fs0 ((writeJsonAtomicOps file content).take 0) file) = fs0 file
      rw [if_neg h']
      rfl
  | 1 =>
    left
    cases torn with
    | none =>
      show (if file = file ++ ".tmp" then some content else fs0 file) = fs0 file
      rw [if_neg h']
    | some t =>
      show (if file = file ++ ".tmp" then some content else fs0 file) = fs0 file
      rw [if_neg h']
  | (n + 2) =>
    right
    rw [crashFs_late fs0 _ _ torn (by simp [writeJsonAtomicOps])]
    simp [writeJsonAtomicOps, applyOps, applyOp]

/-! ## C7: exit-event handling -/

/-- Claim C7 counterexample: after the exit event fires for a running server,
the status query does report not-running with no port, but the in-memory
model path and start timestamp are NOT cleared — the exit handler nulls only
`llamaServerProcess` and `llamaServerPort`, so `modelPath` and `uptime`
remain stale. -/
theorem C7_counterexample_stale_model_path :
    (getLlamaServerStatus envC7 (onProcExit stC7)).running = false ∧
    (getLlamaServerStatus envC7 (onProcExit stC7)).port = none ∧
    (getLlamaServerStatus envC7 (onProcExit stC7)).modelPath =
      some "/userData/llama/models/m.gguf" ∧
    (getLlamaServerStatus envC7 (onProcExit stC7)).uptime = some 5 ∧
    ¬ ((onProcExit stC7).currentModelPath = none) ∧
    ¬ ((onProcExit stC7).startTime = none) := by
  refine ⟨rfl, rfl, rfl, rfl, by decide, by decide⟩

/-! ## List helpers -/

theorem isSome_find?_of {α} (p : α → Bool) (l : List α) (a : α)
    (ha : a ∈ l) (hp : p a = true) : (l.find? p).isSome = true := by
  induction l with
  | nil => cases ha
  | cons b t ih =>
    cases hb : p b with
    | true => simp [List.find?_cons, hb]
    | false =>
      simp only [List.find?_cons, hb]
      rcases List.mem_cons.mp ha with h | h
      · subst h; rw [hp] at hb; cases hb
      · exact ih h

theorem find?_append_of_none {α} (p : α → Bool) (l1 l2 : List α)
    (h : l1.find? p = none) : (l1 ++ l2).find? p = l2.find? p := by
  induction l1 with
  | nil => rfl
  | cons b t ih =>
    cases hb : p b with
    | true => rw [List.find?_cons_of_pos _ hb] at h; cases h
    | false =>
      rw [List.find?_cons_of_neg _ (by simp [hb])] at h
      rw [List.cons_append, List.find?_cons_of_neg _ (by simp [hb])]
      exact ih h

theorem filter_eq_nil_of_false {α} (p : α → Bool) (l : List α)
    (h : ∀ x ∈ l, p x = false) : l.filter p = [] := by
  induction l with
  | nil => rfl
  | cons b t ih =>
    rw [List.filter_cons, h b (List.mem_cons_self b t)]
    exact ih fun x hx => h x (List.mem_cons_of_mem b hx)

theorem find?_updateFirst (l : List ManagedModel) (id : String)
    (f : ManagedModel → ManagedModel) (m0 : ManagedModel)
    (hf : ∀ m, (f m).id = m.id)
    (h : l.find? (fun m => m.id == id) = some m0) :
    (updateFirst l id f).find? (fun m => m.id == id) = some (f m0) := by
  induction l with
  | nil => cases h
  | cons b t ih =>
    cases hb : (b.id == id) with
    | true =>
      simp only [List.find?_cons, hb] at h
      injection h with h
      subst h
      have hfb : ((f b).id == id) = true := by rw [hf b]; exact hb
      simp [updateFirst, hb, hfb, List.find?_cons]
    | false =>
      simp only [List.find?_cons, hb] at h
      simp only [updateFirst, hb]
      simp only [Bool.false_eq_true, if_false, List.find?_cons, hb]
      exact ih h

/-! ## Registry invariant lemmas -/

theorem healActive_models (s : ModelsState) : (healActive s).models = s.models := by
  unfold healActive
  split
  · rfl
  · split
    · rfl
    · split <;> rfl

theorem healActive_of_found (s : ModelsState) (aid : String)
    (ha : s.activeModelId = some aid)
    (h : (s.models.find? fun m => m.id == aid && m.installed).isSome = true) :
    healActive s = s := by
  unfold healActive
  simp only [ha, h, if_true]

theorem stateInvB_mk (v : ℕ) (models : List ManagedModel) (act lu : Option String) :
    stateInvB { version := v, models := models, activeModelId := act, lastUsedModelId := lu } =
      match act with
      | none => true
      | some aid => (models.find? fun m => m.id == aid && m.installed).isSome := rfl

theorem stateInvB_of_installed_found (s : ModelsState) (m : ManagedModel)
    (hm : s.models.find? (fun m => m.installed) = some m)
    (ha : s.activeModelId = some m.id) : stateInvB s = true := by
  unfold stateInvB
  rw [ha]
  exact isSome_find?_of _ _ m (List.mem_of_find?_eq_some hm)
    (by simp [List.find?_some hm])

theorem stateInvB_healActive (s : ModelsState) : stateInvB (healActive s) = true := by
  unfold healActive
  split
  · next heq => simp [stateInvB, heq]
  · next aid heq =>
    split
    · next hf => simp [stateInvB, heq, hf]
    · next hf =>
      split
      · next m hm =>
        exact stateInvB_of_installed_found _ m hm rfl
      · next hm => simp [stateInvB]

theorem selectActive_spec (models : List ManagedModel) (act : Option String) :
    selectActive models act = none ∨
    ∃ aid, selectActive models act = some aid ∧
      (models.find? fun m => m.id == aid && m.installed).isSome = true := by
  unfold selectActive
  cases act with
  | none =>
    cases hm : models.find? fun m => m.installed with
    | none => left; rfl
    | some m =>
      right
      refine ⟨m.id, rfl, ?_⟩
      exact isSome_find?_of _ _ m (List.mem_of_find?_eq_some hm)
        (by simp [List.find?_some hm])
  | some aid =>
    cases hf : (models.find? fun m => m.id == aid && m.installed).isSome with
    | true =>
      right
      exact ⟨aid, by simp [hf], hf⟩
    | false =>
      cases hm : models.find? fun m => m.installed with
      | none => left; simp [hf, hm]
      | some m =>
        right
        refine ⟨m.id, by simp [hf, hm], ?_⟩
        exact isSome_find?_of _ _ m (List.mem_of_find?_eq_some hm)
          (by simp [List.find?_some hm])

theorem stateInvB_selectActive (v : ℕ) (models : List ManagedModel)
    (act : Option String) (lu : Option String) :
    stateInvB { version := v, models := models,
                activeModelId := selectActive models act,
                lastUsedModelId := lu } = true := by
  rcases selectActive_spec models act with h | ⟨aid, h, hfind⟩
  · simp [stateInvB, h]
  · simp [stateInvB, h, hfind]

theorem stateInvB_normalizeLoaded (w : RegWorld) (d : ModelsState) :
    stateInvB (normalizeLoaded w d) = true := by
  unfold normalizeLoaded
  exact stateInvB_selectActive STATE_VERSION _ _ _

theorem stateInvB_computeInitialState (w : RegWorld) :
    stateInvB (computeInitialState w) = true := by
  unfold computeInitialState stateInvB
  cases hq : fsExists w QWEN_STATE_PATH <;> simp [hq, List.find?]

theorem RegWorldInv_persistW (w : RegWorld) (s : ModelsState)
    (hs : stateInvB s = true) : RegWorldInv (persistW w s) := by
  intro s' h
  have h' : s' = { s with version := STATE_VERSION } := by
    injection h with h
    exact h.symm
  subst h'
  exact ⟨hs, rfl⟩

theorem ensureState_spec (w : RegWorld) (hw : RegWorldInv w) :
    stateInvB (ensureState w).1 = true ∧ RegWorldInv (ensureState w).2 ∧
    (ensureState w).2.cached = some (ensureState w).1 := by
  unfold ensureState
  split
  · next s heq =>
    obtain ⟨h1, _⟩ := hw s heq
    exact ⟨h1, hw, heq⟩
  · next heq =>
    split
    · next d hd =>
      have hinv := stateInvB_normalizeLoaded w d
      exact ⟨hinv, RegWorldInv_persistW w _ hinv, rfl⟩
    · next hd =>
      have hinv := stateInvB_computeInitialState w
      exact ⟨hinv, RegWorldInv_persistW w _ hinv, rfl⟩

theorem updateState_inv (w : RegWorld) (mutator : ModelsState → Except String ModelsState)
    (hw : RegWorldInv w) : RegWorldInv (updateState w mutator).2 := by
  have hE2 := (ensureState_spec w hw).2.1
  unfold updateState
  rcases hE : ensureState w with ⟨s, w1⟩
  rw [hE] at hE2
  show RegWorldInv
    (match mutator s with
      | Except.error e => (Except.error e, w1)
      | Except.ok s1 => (Except.ok (healActive s1), persistW w1 (healActive s1))).2
  cases hm : mutator s with
  | error e => exact hE2
  | ok s1 => exact RegWorldInv_persistW w1 _ (stateInvB_healActive s1)

theorem regStep_inv (w : RegWorld) (op : RegOp) (hw : RegWorldInv w) :
    RegWorldInv (regStep w op) := by
  cases op with
  | ensure => exact (ensureState_spec w hw).2.1
  | setActive id =>
    show RegWorldInv (setActiveModel w id).2
    have h := updateState_inv w (setActiveMut id) hw
    unfold setActiveModel
    rcases hU : updateState w (setActiveMut id) with ⟨r, w1⟩
    rw [hU] at h
    cases r
    · exact h
    · exact h
  | updateParams id p =>
    show RegWorldInv (updateModelParams w id p).2
    have h := updateState_inv w (updateParamsMut id p w.now) hw
    unfold updateModelParams
    rcases hU : updateState w (updateParamsMut id p w.now) with ⟨r, w1⟩
    rw [hU] at h
    cases r
    · exact h
    · exact h
  | downloadHf opts dlOk size =>
    show RegWorldInv (downloadHfModel w opts dlOk size).2
    unfold downloadHfModel
    split
    · exact hw
    · split
      · exact hw
      · have hw0 : RegWorldInv { w with fsFiles := (MODEL_DIR ++ "/" ++ opts.fileName) :: w.fsFiles } := hw
        have h := updateState_inv { w with fsFiles := (MODEL_DIR ++ "/" ++ opts.fileName) :: w.fsFiles } (downloadUpsertMut opts size w.now) hw0
        show RegWorldInv (downloadHfRun w opts size).2
        unfold downloadHfRun
        rcases hU : updateState { w with fsFiles := (MODEL_DIR ++ "/" ++ opts.fileName) :: w.fsFiles } (downloadUpsertMut opts size w.now) with ⟨r, w1⟩
        rw [hU] at h
        cases r
        · exact h
        · exact h

theorem foldl_regStep_inv (ops : List RegOp) : ∀ w : RegWorld, RegWorldInv w →
    RegWorldInv (ops.foldl regStep w) := by
  induction ops with
  | nil => exact fun w hw => hw
  | cons op rest ih =>
    intro w hw
    exact ih (regStep w op) (regStep_inv w op hw)

/-- Claim C2: active-model invariant.  Starting from a cold cache (process
start), after any sequence of registry operations (ensureState loads /
bootstraps, setActiveModel, updateModelParams, downloadHfModel), the cached
`ModelsState` — whenever one exists — has `activeModelId` either null or the
id of a model in `models` with `installed = true`, and the persisted
`models.json` content mirrors the cache (so the persisted copy satisfies the
invariant too).  Violations self-heal to the first installed model or null
via `selectActive` (load) and the enforcement block of `updateState`. -/
theorem C2_active_model_invariant (w0 : RegWorld) (h0 : w0.cached = none)
    (ops : List RegOp) (s : ModelsState)
    (hs : (ops.foldl regStep w0).cached = some s) :
    stateInvB s = true ∧ (ops.foldl regStep w0).disk = some (stateToRaw s) := by
  have hw0 : RegWorldInv w0 := by
    intro s' h
    rw [h0] at h
    cases h
  exact foldl_regStep_inv ops w0 hw0 s hs

/-- Witness for C2: a concrete cold boot followed by `ensureState` yields a
cached state satisfying the invariant, mirrored on disk. -/
theorem C2_witness :
    stateInvB sW = true ∧ ([RegOp.ensure].foldl regStep w0W).disk = some (stateToRaw sW) :=
  C2_active_model_invariant w0W rfl [RegOp.ensure] sW rfl

/-! ## C3: clamping in updateModelParams -/

theorem updateState_eq (w : RegWorld) (mutator : ModelsState → Except String ModelsState)
    (s : ModelsState) (w1 : RegWorld) (s1 : ModelsState)
    (hE : ensureState w = (s, w1)) (hm : mutator s = .ok s1) :
    updateState w mutator = (.ok (healActive s1), persistW w1 (healActive s1)) := by
  unfold updateState
  rw [hE]
  show (match mutator s with
        | Except.error e => (Except.error e, w1)
        | Except.ok s2 => (Except.ok (healActive s2), persistW w1 (healActive s2))) =
    (Except.ok (healActive s1), persistW w1 (healActive s1))
  rw [hm]

theorem updateModelParams_eq (w : RegWorld) (id : String) (p : PartialParams)
    (s : ModelsState) (w1 : RegWorld) (m0 : ManagedModel)
    (hE : ensureState w = (s, w1))
    (hfind : s.models.find? (fun m => m.id == id) = some m0) :
    updateModelParams w id p =
      ({ ok := true, model := some (paramUpdater p w.now m0), error := none },
       persistW w1 (healActive
         { s with models := updateFirst s.models id (paramUpdater p w.now) })) := by
  have hmut : updateParamsMut id p w.now s =
      .ok { s with models := updateFirst s.models id (paramUpdater p w.now) } := by
    unfold updateParamsMut
    rw [hfind]
  have hfind2 : (healActive
      { s with models := updateFirst s.models id (paramUpdater p w.now) }).models.find?
        (fun m => m.id == id) = some (paramUpdater p w.now m0) := by
    rw [healActive_models]
    exact find?_updateFirst s.models id _ m0 (fun m => rfl) hfind
  have hU := updateState_eq w (updateParamsMut id p w.now) s w1 _ hE hmut
  unfold updateModelParams
  rw [hU]
  simp only [hfind2]

/-- Claim C3: clamping is total.  For every registry world and model id
present in the loaded state (with in-range stored params, which every state
produced by load or mutation has), `updateModelParams` returns `ok` and the
stored record has every field inside its clamp range; a missing field keeps
the existing stored value, and a NaN field clamps to the range minimum. -/
theorem C3_update_params_clamped (w : RegWorld) (id : String) (p : PartialParams)
    (m0 : ManagedModel)
    (hfind : (ensureState w).1.models.find? (fun m => m.id == id) = some m0)
    (hold : paramsInRange m0.currentParams) :
    ∃ m1 s1,
      (updateModelParams w id p).1.ok = true ∧
      (updateModelParams w id p).1.model = some m1 ∧
      (updateModelParams w id p).2.cached = some s1 ∧
      s1.models.find? (fun m => m.id == id) = some m1 ∧
      m1.currentParams = normalizeParams (some (mergeParams m0.currentParams p)) ∧
      paramsInRange m1.currentParams ∧
      (p.temperature = none → m1.currentParams.temperature = m0.currentParams.temperature) ∧
      (p.topP = none → m1.currentParams.topP = m0.currentParams.topP) ∧
      (p.topK = none → m1.currentParams.topK = m0.currentParams.topK) ∧
      (p.maxTokens = none → m1.currentParams.maxTokens = m0.currentParams.maxTokens) ∧
      (p.contextWindow = none → m1.currentParams.contextWindow = m0.currentParams.contextWindow) ∧
      (p.gpuLayers = none → m1.currentParams.gpuLayers = m0.currentParams.gpuLayers) ∧
      (p.temperature = some .nan → m1.currentParams.temperature = 0) ∧
      (p.topP = some .nan → m1.currentParams.topP = 0) ∧
      (p.topK = some .nan → m1.currentParams.topK = 0) ∧
      (p.maxTokens = some .nan → m1.currentParams.maxTokens = 16) ∧
      (p.contextWindow = some .nan → m1.currentParams.contextWindow = 512) ∧
      (p.gpuLayers = some .nan → m1.currentParams.gpuLayers = 0) := by
  obtain ⟨g1, g2, g3, g4, g5, g6, g7, g8, g9, g10, g11, g12⟩ := hold
  rcases hE2 : ensureState w with ⟨s, w1⟩
  have hfind' : s.models.find? (fun m => m.id == id) = some m0 := by
    rw [hE2] at hfind; exact hfind
  have heq := updateModelParams_eq w id p s w1 m0 hE2 hfind'
  refine ⟨paramUpdater p w.now m0,
    { healActive { s with models := updateFirst s.models id (paramUpdater p w.now) }
      with version := STATE_VERSION }, ?_⟩
  rw [heq]
  have hfind2 : (healActive
      { s with models := updateFirst s.models id (paramUpdater p w.now) }).models.find?
        (fun m => m.id == id) = some (paramUpdater p w.now m0) := by
    rw [healActive_models]
    exact find?_updateFirst s.models id _ m0 (fun m => rfl) hfind'
  refine ⟨rfl, rfl, rfl, hfind2, rfl, normalizeParams_inRange _, ?_, ?_, ?_, ?_, ?_, ?_,
    ?_, ?_, ?_, ?_, ?_, ?_⟩
  · intro hp
    show clamp ((mergeParams m0.currentParams p).temperature.getD
      (.val DEFAULT_PARAMS.temperature)) 0 2 = m0.currentParams.temperature
    simp only [mergeParams, hp, Option.getD_none, Option.getD_some]
    exact clamp_of_mem g1 g2
  · intro hp
    show clamp ((mergeParams m0.currentParams p).topP.getD
      (.val DEFAULT_PARAMS.topP)) 0 1 = m0.currentParams.topP
    simp only [mergeParams, hp, Option.getD_none, Option.getD_some]
    exact clamp_of_mem g3 g4
  · intro hp
    show clamp ((mergeParams m0.currentParams p).topK.getD
      (.val DEFAULT_PARAMS.topK)) 0 2000 = m0.currentParams.topK
    simp only [mergeParams, hp, Option.getD_none, Option.getD_some]
    exact clamp_of_mem g5 g6
  · intro hp
    show clamp ((mergeParams m0.currentParams p).maxTokens.getD
      (.val DEFAULT_PARAMS.maxTokens)) 16 32768 = m0.currentParams.maxTokens
    simp only [mergeParams, hp, Option.getD_none, Option.getD_some]
    exact clamp_of_mem g7 g8
  · intro hp
    show clamp ((mergeParams m0.currentParams p).contextWindow.getD
      (.val DEFAULT_PARAMS.contextWindow)) 512 131072 = m0.currentParams.contextWindow
    simp only [mergeParams, hp, Option.getD_none, Option.getD_some]
    exact clamp_of_mem g9 g10
  · intro hp
    show clamp ((mergeParams m0.currentParams p).gpuLayers.getD
      (.val DEFAULT_PARAMS.gpuLayers)) 0 64 = m0.currentParams.gpuLayers
    simp only [mergeParams, hp, Option.getD_none, Option.getD_some]
    exact clamp_of_mem g11 g12
  · intro hp
    show clamp ((mergeParams m0.currentParams p).temperature.getD
      (.val DEFAULT_PARAMS.temperature)) 0 2 = 0
    simp only [mergeParams, hp, Option.getD_some]
    rfl
  · intro hp
    show clamp ((mergeParams m0.currentParams p).topP.getD
      (.val DEFAULT_PARAMS.topP)) 0 1 = 0
    simp only [mergeParams, hp, Option.getD_some]
    rfl
  · intro hp
    show clamp ((mergeParams m0.currentParams p).topK.getD
      (.val DEFAULT_PARAMS.topK)) 0 2000 = 0
    simp only [mergeParams, hp, Option.getD_some]
    rfl
  · intro hp
    show clamp ((mergeParams m0.currentParams p).maxTokens.getD
      (.val DEFAULT_PARAMS.maxTokens)) 16 32768 = 16
    simp only [mergeParams, hp, Option.getD_some]
    rfl
  · intro hp
    show clamp ((mergeParams m0.currentParams p).contextWindow.getD
      (.val DEFAULT_PARAMS.contextWindow)) 512 131072 = 512
    simp only [mergeParams, hp, Option.getD_some]
    rfl
  · intro hp
    show clamp ((mergeParams m0.currentParams p).gpuLayers.getD
      (.val DEFAULT_PARAMS.gpuLayers)) 0 64 = 0
    simp only [mergeParams, hp, Option.getD_some]
    rfl

/-- Witness for C3: updating the bootstrapped builtin model with `pC3`
succeeds. -/
theorem C3_witness :
    (updateModelParams w0W "Qwen/Qwen3-4B-Q4_K_M" pC3).1.ok = true := by
  obtain ⟨m1, s1, h1, hrest⟩ :=
    C3_update_params_clamped w0W "Qwen/Qwen3-4B-Q4_K_M" pC3 qwenInitialModel rfl
      (normalizeParams_inRange (some qwenSeedParams))
  exact h1

/-! ## C8: first-model auto-activation in downloadHfModel -/

/-- Claim C8 counterexample: with `activeModelId = null` and an existing
(uninstalled) registry entry for the same id, a successful
`downloadHfModel({repoId:"X", fileName:"m.gguf"})` takes the upsert branch:
it returns ok with the entry `installed = true`, but `activeModelId` stays
null — the auto-activation only runs in the new-entry branch. -/
theorem C8_counterexample_upsert_no_activation :
    (downloadHfModel wC8 optsC8 true 7).1.ok = true ∧
    ((downloadHfModel wC8 optsC8 true 7).1.model.map fun m => m.installed) = some true ∧
    ((downloadHfModel wC8 optsC8 true 7).2.cached.map fun s => s.activeModelId) = some none := by
  refine ⟨rfl, rfl, rfl⟩

/-- Claim C8 amended: when no model is active and the downloaded id is NOT
yet in the registry, a successful `downloadHfModel` creates the entry with
`installed = true` and makes it active; when the id already exists, the entry
is updated in place and `activeModelId` is left unchanged (see the
counterexample). -/
theorem C8_new_entry_activates (w : RegWorld) (opts : HfDownloadOptions) (size : ℕ)
    (s : ModelsState) (w1 : RegWorld)
    (hr : ¬ (opts.repoId = "")) (hf : ¬ (opts.fileName = ""))
    (hE : ensureState { w with fsFiles := (MODEL_DIR ++ "/" ++ opts.fileName) :: w.fsFiles } = (s, w1))
    (hactive : s.activeModelId = none)
    (hnew : s.models.find? (fun m => m.id == opts.repoId ++ "/" ++ opts.fileName) = none) :
    (downloadHfModel w opts true size).1.ok = true ∧
    (downloadHfModel w opts true size).1.model = some (hfNewModel opts size w.now) ∧
    (hfNewModel opts size w.now).installed = true ∧
    (hfNewModel opts size w.now).id = opts.repoId ++ "/" ++ opts.fileName ∧
    ∃ s2, (downloadHfModel w opts true size).2.cached = some s2 ∧
      s2.activeModelId = some (opts.repoId ++ "/" ++ opts.fileName) := by
  have hmut : downloadUpsertMut opts size w.now s =
      .ok { s with
            models := s.models ++ [hfNewModel opts size w.now]
            activeModelId := some (opts.repoId ++ "/" ++ opts.fileName)
            lastUsedModelId := some (opts.repoId ++ "/" ++ opts.fileName) } := by
    unfold downloadUpsertMut
    simp [hnew, hactive]
  have hisSome : (((s.models ++ [hfNewModel opts size w.now]).find?
      fun m => m.id == opts.repoId ++ "/" ++ opts.fileName && m.installed)).isSome = true := by
    refine isSome_find?_of _ _ (hfNewModel opts size w.now) ?_ ?_
    · exact List.mem_append_right _ (List.mem_singleton_self _)
    · simp [hfNewModel]
  have hheal := healActive_of_found
    { s with
      models := s.models ++ [hfNewModel opts size w.now]
      activeModelId := some (opts.repoId ++ "/" ++ opts.fileName)
      lastUsedModelId := some (opts.repoId ++ "/" ++ opts.fileName) }
    (opts.repoId ++ "/" ++ opts.fileName) rfl hisSome
  have hU := updateState_eq { w with fsFiles := (MODEL_DIR ++ "/" ++ opts.fileName) :: w.fsFiles }
    (downloadUpsertMut opts size w.now) s w1 _ hE hmut
  rw [hheal] at hU
  have hfindNew : ((s.models ++ [hfNewModel opts size w.now]).find?
      fun m => m.id == opts.repoId ++ "/" ++ opts.fileName) =
      some (hfNewModel opts size w.now) := by
    rw [find?_append_of_none _ _ _ hnew]
    simp [hfNewModel]
  have hrun : downloadHfModel w opts true size =
      ({ ok := true, model := some (hfNewModel opts size w.now), error := none },
       persistW w1 { s with
         models := s.models ++ [hfNewModel opts size w.now]
         activeModelId := some (opts.repoId ++ "/" ++ opts.fileName)
         lastUsedModelId := some (opts.repoId ++ "/" ++ opts.fileName) }) := by
    unfold downloadHfModel
    rw [if_neg (by simp [hr, hf])]
    rw [if_neg (by simp)]
    unfold downloadHfRun
    rw [hU]
    simp only [hfindNew]
  rw [hrun]
  refine ⟨rfl, rfl, rfl, rfl, ?_⟩
  refine ⟨_, rfl, rfl⟩

/-- Witness for C8: from a fresh boot world (registry contains only the
builtin entry), downloading `X/m.gguf` activates it. -/
theorem C8_witness :
    (downloadHfModel w0W optsC8 true 7).1.ok = true ∧
    ((downloadHfModel w0W optsC8 true 7).2.cached.map fun s => s.activeModelId) =
      some (some (optsC8.repoId ++ "/" ++ optsC8.fileName)) := by
  obtain ⟨h1, h2, h3, h4, s2, h5, h6⟩ :=
    C8_new_entry_activates w0W optsC8 7 _ _ (by decide) (by decide) rfl rfl rfl
  refine ⟨h1, ?_⟩
  rw [h5]
  simp [h6]

/-! ## C1: idempotence of the install flow -/

theorem contains_cons_of {l : List String} {x c : String}
    (h : l.contains x = true) : (c :: l).contains x = true := by
  have hstep : (c :: l).contains x =
      match x == c with
      | true => true
      | false => l.contains x := rfl
  rw [hstep]
  cases hxc : (x == c) with
  | true => rfl
  | false => exact h

theorem contains_cons_of_self (l : List String) (x : String) :
    (x :: l).contains x = true := by
  have hstep : (x :: l).contains x =
      match x == x with
      | true => true
      | false => l.contains x := rfl
  rw [hstep]
  simp

theorem downloadModelIfNeededI_fs (env : InstallEnv) (fsI : InstallFs) :
    (downloadModelIfNeededI env fsI).2.1.metadata = fsI.metadata ∧
    ∀ x, fsI.files.contains x = true →
      (downloadModelIfNeededI env fsI).2.1.files.contains x = true := by
  unfold downloadModelIfNeededI
  split
  · exact ⟨rfl, fun x hx => hx⟩
  · split
    · exact ⟨rfl, fun x hx => contains_cons_of hx⟩
    · exact ⟨rfl, fun x hx => hx⟩

theorem inferBinaryPathFromAsset_ok (env : InstallEnv) (platform : Platform)
    (fsI : InstallFs) (assetPath bp : String) (fs2 : InstallFs)
    (h : inferBinaryPathFromAsset env platform fsI assetPath = .ok (bp, fs2))
    (hAsset : fsI.files.contains assetPath = true) :
    fs2.files.contains bp = true ∧ fs2.metadata = fsI.metadata := by
  unfold inferBinaryPathFromAsset at h
  split at h
  · injection h with h
    injection h with h1 h2
    subst h1; subst h2
    exact ⟨hAsset, rfl⟩
  · split at h
    · cases hl : env.locatedBinary assetPath with
      | some b =>
        rw [hl] at h
        injection h with h
        injection h with h1 h2
        subst h1; subst h2
        exact ⟨contains_cons_of_self _ _, rfl⟩
      | none =>
        rw [hl] at h
        cases h
    · injection h with h
      injection h with h1 h2
      subst h1; subst h2
      exact ⟨hAsset, rfl⟩

theorem installLatestLlama_success (env : InstallEnv) (fsI : InstallFs)
    (hs : (installLatestLlama env fsI).1.installed = true) :
    ∃ tag bp,
      (installLatestLlama env fsI).1 =
        { installed := true, version := some tag, binaryPath := some bp, error := none } ∧
      (installLatestLlama env fsI).2.1.metadata = some ⟨tag, bp⟩ ∧
      (installLatestLlama env fsI).2.1.files.contains bp = true := by
  unfold installLatestLlama at hs ⊢
  cases hP : getPlatform env.platformStr with
  | none => simp [hP, notInstalledStatus] at hs
  | some platform =>
  simp only [hP] at hs ⊢
  cases hA : getArch env.archStr with
  | none => simp [hA, notInstalledStatus] at hs
  | some arch =>
  simp only [hA] at hs ⊢
  cases hR : env.release with
  | error e => simp [hR, notInstalledStatus] at hs
  | ok release =>
  simp only [hR] at hs ⊢
  cases hF : release.assets.filter (fun a => pickAssetNamePattern platform arch a.name) with
  | nil => simp [hF, notInstalledStatus] at hs
  | cons asset rest =>
  simp only [hF] at hs ⊢
  cases hD : env.downloadOk with
  | false => simp [hD, notInstalledStatus] at hs
  | true =>
  simp only [hD] at hs ⊢
  rw [if_neg (by simp)] at hs ⊢
  cases hI : inferBinaryPathFromAsset env platform
      { fsI with files := (INSTALL_DIR ++ "/" ++ asset.name) :: fsI.files }
      (INSTALL_DIR ++ "/" ++ asset.name) with
  | error e => simp [hI, notInstalledStatus] at hs
  | ok pr =>
  obtain ⟨bp, fs2⟩ := pr
  simp only [hI] at hs ⊢
  rcases hM : downloadModelIfNeededI env { fs2 with metadata := some ⟨release.tag_name, bp⟩ } with
    ⟨r4, fs4, n⟩
  simp only [hM] at hs ⊢
  cases r4 with
  | error e => simp [notInstalledStatus] at hs
  | ok mp =>
  refine ⟨release.tag_name, bp, rfl, ?_, ?_⟩
  · have hmeta := (downloadModelIfNeededI_fs env { fs2 with metadata := some ⟨release.tag_name, bp⟩ }).1
    rw [hM] at hmeta
    exact hmeta
  · have hbp : fs2.files.contains bp = true :=
      (inferBinaryPathFromAsset_ok env platform _ _ bp fs2 hI (by simp [List.contains_cons])).1
    have hmono := (downloadModelIfNeededI_fs env { fs2 with metadata := some ⟨release.tag_name, bp⟩ }).2 bp hbp
    rw [hM] at hmono
    exact hmono

theorem ensureLlamaBinary_valid (env2 : InstallEnv) (fsI : InstallFs) (meta : InstallMeta)
    (hm : fsI.metadata = some meta)
    (hbp : ¬ (meta.binaryPath = ""))
    (hc : fsI.files.contains meta.binaryPath = true) :
    ensureLlamaBinary env2 fsI =
      ({ installed := true, version := some meta.version,
         binaryPath := some meta.binaryPath, error := none }, fsI, 0) := by
  have hmem : meta.binaryPath ∈ fsI.files := by simpa using hc
  have hread : readInstallMetadata fsI =
      { installed := true, version := some meta.version,
        binaryPath := some meta.binaryPath, error := none } := by
    unfold readInstallMetadata
    rw [hm]
    show (if (decide (meta.binaryPath ≠ "") && fsI.files.contains meta.binaryPath) = true then
        ({ installed := true, version := some meta.version,
           binaryPath := some meta.binaryPath, error := none } : LlamaInstallStatus)
      else ({ installed := false, version := none, binaryPath := none,
              error := none } : LlamaInstallStatus)) =
      ({ installed := true, version := some meta.version,
         binaryPath := some meta.binaryPath, error := none } : LlamaInstallStatus)
    rw [if_pos (by simp [hbp, hmem])]
  have hget : getLlamaInstallStatus fsI =
      { installed := true, version := some meta.version,
        binaryPath := some meta.binaryPath, error := none } := by
    unfold getLlamaInstallStatus
    rw [hread]
    show (if ((true : Bool) && fsI.files.contains meta.binaryPath) = true then
        ({ installed := true, version := some meta.version,
           binaryPath := some meta.binaryPath, error := none } : LlamaInstallStatus)
      else ({ installed := false, version := none, binaryPath := none,
              error := none } : LlamaInstallStatus)) =
      ({ installed := true, version := some meta.version,
         binaryPath := some meta.binaryPath, error := none } : LlamaInstallStatus)
    rw [if_pos (by simp [hmem])]
  unfold ensureLlamaBinary
  rw [hget]
  show (if ((true : Bool) && fsI.files.contains meta.binaryPath) = true then
      (({ installed := true, version := some meta.version,
          binaryPath := some meta.binaryPath, error := none } : LlamaInstallStatus), fsI, 0)
    else installAndValidate env2 fsI) =
    (({ installed := true, version := some meta.version,
        binaryPath := some meta.binaryPath, error := none } : LlamaInstallStatus), fsI, 0)
  rw [if_pos (by simp [hmem])]

/-- Claim C1 amended: the idempotence lives in `ensureLlamaBinary`, the
install entry point used by the server supervisor: after a successful run of
the full pipeline `installLatestLlama`, a subsequent `ensureLlamaBinary`
(under any network environment) issues zero network requests, leaves the
filesystem untouched, and returns exactly the InstallStatus the first
invocation returned; `installLatestLlama` itself never short-circuits (see
the counterexample). -/
theorem C1_ensureLlamaBinary_idempotent (env env2 : InstallEnv) (fsI : InstallFs)
    (hst : (installLatestLlama env fsI).1.installed = true)
    (hbp : ¬ ((installLatestLlama env fsI).1.binaryPath = some "")) :
    ensureLlamaBinary env2 (installLatestLlama env fsI).2.1 =
      ((installLatestLlama env fsI).1, (installLatestLlama env fsI).2.1, 0) := by
  obtain ⟨tag, bp, hstat, hmeta, hfiles⟩ := installLatestLlama_success env fsI hst
  have hbp' : ¬ (bp = "") := by
    intro h
    apply hbp
    rw [hstat, h]
  rw [hstat]
  exact ensureLlamaBinary_valid env2 _ ⟨tag, bp⟩ hmeta hbp' hfiles

/-- Claim C1 counterexample: in a state where the previous install succeeded
(metadata valid, binary exists), invoking the full install pipeline
`installLatestLlama` again performs 2 network requests (release fetch +
asset download) instead of zero — the pipeline has no short-circuit check. -/
theorem C1_counterexample_install_refetches :
    getLlamaInstallStatus fsC1 =
      { installed := true, version := some "b7306",
        binaryPath := some (INSTALL_DIR ++ "/build/bin/llama-server"), error := none } ∧
    (installLatestLlama envC1 fsC1).2.2 = 2 ∧
    ¬ ((installLatestLlama envC1 fsC1).2.2 = 0) := by
  refine ⟨rfl, rfl, by decide⟩

/-- Witness for C1: a concrete fresh install followed by `ensureLlamaBinary`
returns the same status with zero requests. -/
theorem C1_witness :
    ensureLlamaBinary envC1 (installLatestLlama envC1 fsC1b).2.1 =
      ((installLatestLlama envC1 fsC1b).1, (installLatestLlama envC1 fsC1b).2.1, 0) :=
  C1_ensureLlamaBinary_idempotent envC1 envC1 fsC1b rfl (by decide)

/-! ## C9: platform gate and asset predicate -/

/-- Claim C9 counterexample: on win32/arm64 the install flow does NOT fail
with an unsupported-platform (or unsupported-architecture) error before
proceeding — both guards pass, the release fetch is performed (1 network
request), and the flow fails later with the no-matching-asset error. -/
theorem C9_counterexample_win_arm64_proceeds :
    (installLatestLlama envC9 fsC9).1.error =
      some "No suitable llama.cpp asset found for windows/arm64 in latest release b7306" ∧
    (installLatestLlama envC9 fsC9).2.2 = 1 ∧
    ¬ ((installLatestLlama envC9 fsC9).1.error =
        some ("Unsupported platform: " ++ envC9.platformStr)) ∧
    ¬ ((installLatestLlama envC9 fsC9).1.error =
        some ("Unsupported architecture: " ++ envC9.archStr)) ∧
    ¬ ((installLatestLlama envC9 fsC9).2.2 = 0) := by
  refine ⟨rfl, rfl, by decide, by decide, by decide⟩

/-- Claim C9 amended: an unrecognized OS (resp. architecture) string fails
with a terminal unsupported-platform (resp. -architecture) error before any
network request; the asset predicate for each supported pair accepts a name
iff its lowercase form ends in ".zip" and contains the platform token, and
rejects everything for the three recognized-but-unsupported pairs; for those
pairs the flow proceeds to fetch the release (1 request) and fails with the
no-matching-asset error instead of an unsupported-platform error. -/
theorem C9_platform_gate_and_predicate :
    (∀ (env : InstallEnv) (fsI : InstallFs), getPlatform env.platformStr = none →
      installLatestLlama env fsI =
        (notInstalledStatus (some ("Unsupported platform: " ++ env.platformStr)), fsI, 0)) ∧
    (∀ (env : InstallEnv) (fsI : InstallFs) (p : Platform),
      getPlatform env.platformStr = some p → getArch env.archStr = none →
      installLatestLlama env fsI =
        (notInstalledStatus (some ("Unsupported architecture: " ++ env.archStr)), fsI, 0)) ∧
    (∀ name : String,
      (pickAssetNamePattern .windows .x64 name =
        (strEndsWith (strToLower name) ".zip" && hasSubstr (strToLower name) "-win-vulkan-x64")) ∧
      (pickAssetNamePattern .linux .x64 name =
        (strEndsWith (strToLower name) ".zip" && hasSubstr (strToLower name) "-ubuntu-vulkan-x64")) ∧
      (pickAssetNamePattern .macos .arm64 name =
        (strEndsWith (strToLower name) ".zip" && hasSubstr (strToLower name) "-macos-arm64")) ∧
      pickAssetNamePattern .windows .arm64 name = false ∧
      pickAssetNamePattern .linux .arm64 name = false ∧
      pickAssetNamePattern .macos .x64 name = false) ∧
    (∀ (env : InstallEnv) (fsI : InstallFs) (p : Platform) (a : Arch) (r : GithubRelease),
      getPlatform env.platformStr = some p → getArch env.archStr = some a →
      env.release = .ok r →
      ((p = .windows ∧ a = .arm64) ∨ (p = .linux ∧ a = .arm64) ∨ (p = .macos ∧ a = .x64)) →
      installLatestLlama env fsI =
        (notInstalledStatus (some ("No suitable llama.cpp asset found for " ++
          platformName p ++ "/" ++ archName a ++ " in latest release " ++ r.tag_name)), fsI, 1)) := by
  refine ⟨?_, ?_, ?_, ?_⟩
  · intro env fsI h
    unfold installLatestLlama
    rw [h]
  · intro env fsI p hp ha
    unfold installLatestLlama
    simp only [hp, ha]
  · intro name
    exact ⟨rfl, rfl, rfl, rfl, rfl, rfl⟩
  · intro env fsI p a r hp ha hr hcases
    have hfalse : ∀ x ∈ r.assets, pickAssetNamePattern p a x.name = false := by
      intro x hx
      rcases hcases with ⟨hp', ha'⟩ | ⟨hp', ha'⟩ | ⟨hp', ha'⟩ <;> (subst hp'; subst ha'; rfl)
    have hfilter : r.assets.filter (fun x => pickAssetNamePattern p a x.name) = [] :=
      filter_eq_nil_of_false _ _ hfalse
    unfold installLatestLlama
    simp only [hp, ha, hr, hfilter]

/-- Witness for C9 at concrete inputs. -/
theorem C9_witness :
    installLatestLlama envC9bad fsC9 =
      (notInstalledStatus (some ("Unsupported platform: " ++ envC9bad.platformStr)), fsC9, 0) ∧
    installLatestLlama envC9 fsC9 =
      (notInstalledStatus (some ("No suitable llama.cpp asset found for " ++
        platformName .windows ++ "/" ++ archName .arm64 ++ " in latest release " ++
        relC9.tag_name)), fsC9, 1) ∧
    pickAssetNamePattern .windows .arm64 "llama-b7306-bin-win-vulkan-x64.zip" = false := by
  obtain ⟨h1, h2, h3, h4⟩ := C9_platform_gate_and_predicate
  exact ⟨h1 envC9bad fsC9 rfl,
    h4 envC9 fsC9 .windows .arm64 relC9 rfl rfl rfl (Or.inl ⟨rfl, rfl⟩),
    (h3 "llama-b7306-bin-win-vulkan-x64.zip").2.2.2.1⟩

/-! ## C6: idempotence of ensureLlamaServer -/

theorem resolveModelPath_active (env : SupEnv) (fsI : InstallFs) (m : ManagedModel)
    (hm : env.activeModel = some m) (hinst : m.installed = true)
    (hfp : ¬ (m.filePath = "")) :
    resolveModelPath env fsI =
      (.ok (m.filePath, if m.currentParams.contextWindow = 0 then (8192 : ℚ)
        else m.currentParams.contextWindow), fsI, 0) := by
  unfold resolveModelPath
  rw [hm]
  show (if (m.installed && decide (m.filePath ≠ "")) = true then
      ((.ok (m.filePath, if m.currentParams.contextWindow = 0 then (8192 : ℚ)
        else m.currentParams.contextWindow) : Except String (String × ℚ)), fsI, 0)
    else fallbackModel env fsI) = _
  rw [if_pos (by simp [hinst, hfp])]

theorem pickAvailablePort_eq (env : SupEnv) (p : ℕ)
    (hport : (env.portCandidates.take 10).find? env.portOk = some p) :
    pickAvailablePort env = .ok p := by
  unfold pickAvailablePort
  rw [hport]

theorem spawnLlamaServer_stopped (env : SupEnv) (st : SupState) (p : ℕ)
    (hproc : st.proc = none)
    (hp : pickAvailablePort env = .ok p) :
    spawnLlamaServer env st =
      { res := .ok p,
        st := { st with proc := some env.pid, port := some p, startTime := some env.now },
        spawns := 1, kills := 0 } := by
  unfold spawnLlamaServer
  rw [if_neg (by simp [hproc])]
  unfold spawnFresh
  rw [hp]

theorem stopIfModelChanged_stopped (st : SupState) (modelPath : String)
    (hproc : st.proc = none) :
    stopIfModelChanged st modelPath = (st, 0) := by
  unfold stopIfModelChanged
  rw [if_neg (by simp [hproc])]

/-- Claim C6: idempotent ensureServer.  With an installed active model, a
valid binary install and an available port, the first `ensureLlamaServer`
call from the stopped state spawns exactly one subprocess and returns the
endpoint; the second call — the server now running with the same model
path — returns the same endpoint and performs no spawn, no kill, no network
request and no state change, so exactly one subprocess is spawned in
total. -/
theorem C6_ensure_server_idempotent (env : SupEnv) (fsI : InstallFs) (m : ManagedModel)
    (meta : InstallMeta) (p : ℕ)
    (hm : env.activeModel = some m)
    (hinst : m.installed = true)
    (hfp : ¬ (m.filePath = ""))
    (hmeta : fsI.metadata = some meta)
    (hbp : ¬ (meta.binaryPath = ""))
    (hc : fsI.files.contains meta.binaryPath = true)
    (hport : (env.portCandidates.take 10).find? env.portOk = some p)
    (hp0 : ¬ (p = 0)) :
    (ensureLlamaServer env fsI initialSupState).res =
      .ok ("http://localhost:" ++ toString p) ∧
    (ensureLlamaServer env fsI initialSupState).spawns = 1 ∧
    (ensureLlamaServer env fsI initialSupState).kills = 0 ∧
    (ensureLlamaServer env fsI initialSupState).requests = 0 ∧
    (ensureLlamaServer env (ensureLlamaServer env fsI initialSupState).fs
        (ensureLlamaServer env fsI initialSupState).st).res =
      .ok ("http://localhost:" ++ toString p) ∧
    (ensureLlamaServer env (ensureLlamaServer env fsI initialSupState).fs
        (ensureLlamaServer env fsI initialSupState).st).st =
      (ensureLlamaServer env fsI initialSupState).st ∧
    (ensureLlamaServer env (ensureLlamaServer env fsI initialSupState).fs
        (ensureLlamaServer env fsI initialSupState).st).spawns = 0 ∧
    (ensureLlamaServer env (ensureLlamaServer env fsI initialSupState).fs
        (ensureLlamaServer env fsI initialSupState).st).kills = 0 ∧
    (ensureLlamaServer env (ensureLlamaServer env fsI initialSupState).fs
        (ensureLlamaServer env fsI initialSupState).st).requests = 0 := by
  have hres := resolveModelPath_active env fsI m hm hinst hfp
  have hbin := ensureLlamaBinary_valid env.installEnv fsI meta hmeta hbp hc
  have hspawn := spawnLlamaServer_stopped env initialSupState p rfl
    (pickAvailablePort_eq env p hport)
  have hstop := stopIfModelChanged_stopped initialSupState m.filePath rfl
  have e1 : ensureLlamaServer env fsI initialSupState =
      { res := .ok ("http://localhost:" ++ toString p),
        st := { proc := some env.pid, port := some p,
                currentModelPath := some m.filePath,
                startTime := some env.now, logs := [] },
        fs := fsI, spawns := 1, kills := 0, requests := 0 } := by
    unfold ensureLlamaServer
    simp only [hres]
    rw [if_neg (by simp [initialSupState])]
    simp only [hbin]
    simp only [if_true]
    unfold startWithModel
    simp only [hstop, hspawn]
    rfl
  have hpne : ((p != 0) = true) := by simp [hp0]
  have e2 : ensureLlamaServer env fsI
      { proc := some env.pid, port := some p, currentModelPath := some m.filePath,
        startTime := some env.now, logs := [] } =
      { res := .ok ("http://localhost:" ++ toString p),
        st := { proc := some env.pid, port := some p,
                currentModelPath := some m.filePath,
                startTime := some env.now, logs := [] },
        fs := fsI, spawns := 0, kills := 0, requests := 0 } := by
    unfold ensureLlamaServer
    simp only [hres]
    rw [if_pos (by simp [hpne])]
    rfl
  rw [e1]
  refine ⟨rfl, rfl, rfl, rfl, ?_, ?_, ?_, ?_, ?_⟩ <;> rw [e2]

/-- Witness for C6 at a concrete environment. -/
theorem C6_witness :
    (ensureLlamaServer envC6 fsC1 initialSupState).res =
      .ok ("http://localhost:" ++ toString 12345) ∧
    (ensureLlamaServer envC6 fsC1 initialSupState).spawns = 1 ∧
    (ensureLlamaServer envC6 (ensureLlamaServer envC6 fsC1 initialSupState).fs
        (ensureLlamaServer envC6 fsC1 initialSupState).st).spawns = 0 := by
  obtain ⟨h1, h2, h3, h4, h5, h6, h7, h8, h9⟩ :=
    C6_ensure_server_idempotent envC6 fsC1 mC6
      { version := "b7306", binaryPath := INSTALL_DIR ++ "/build/bin/llama-server" } 12345
      rfl rfl (by decide) rfl (by decide) (by decide) rfl (by decide)
  exact ⟨h1, h2, h7⟩

/-- Claim C7 amended: the exit handler always clears the process handle and
the port — after it runs, the status query reports the server as not
running with no live port — but it leaves the model path and the start
timestamp untouched (they are only cleared by an explicit stop). -/
theorem C7_exit_clears_proc_port (env : SupEnv) (st : SupState) :
    (onProcExit st).proc = none ∧ (onProcExit st).port = none ∧
    (getLlamaServerStatus env (onProcExit st)).running = false ∧
    (getLlamaServerStatus env (onProcExit st)).port = none ∧
    (onProcExit st).currentModelPath = st.currentModelPath ∧
    (onProcExit st).startTime = st.startTime :=
  ⟨rfl, rfl, rfl, rfl, rfl, rfl⟩

end MyDeviceAI
